import Mathlib

/-!
# Verification of the Eufy memories pipeline against its specification

A shallow embedding of the core data model and operations of the
surveillance-clip memory pipeline (identity arbiter, event fusion,
identity refiner, keyframe/quality selection, frame sampler, daily
summarizer, retrieval answer path, appearance persister), together with
theorems settling the specification claims about them.

Conventions of the embedding:
* wall-clock timestamps and all numeric quantities from the Python code
  are rationals (`ℚ`), seconds for times and time differences;
* Python dicts `person` inside `people_detected` become the `Detection`
  structure; a missing key with a `.get` default is represented by the
  defaulted value, optional values by `Option`;
* database rows become structures, tables become lists of rows kept in
  insertion order;
* vector similarity (`1 - (a <=> b)` in pgvector SQL) is kept abstract as
  a parameter `sim`, since none of the claims depends on the numeric
  definition of cosine similarity;
* `SELECT ... ORDER BY distance LIMIT 1` with a similarity threshold in
  the `WHERE` clause is modelled by `pickMaxAux`, which returns the first
  row attaining the maximal similarity strictly above the threshold (SQL
  leaves the tie order unspecified; the model fixes it deterministically).
-/

/-- One resolved person detection, i.e. one entry of a frame list in
`clip['people_detected']` (see `identity_arbiter.py` output and its
consumers).  `role` and `method` carry the defaulted values of
`person.get('role', 'stranger')` and `person.get('method', 'unknown')`. -/
structure Detection where
  personId : Option Nat
  role : String
  method : String
  confidence : ℚ
  bbox : Option (ℚ × ℚ × ℚ × ℚ)
  bodyEmbedding : Option (List ℚ)
  deriving DecidableEq, Repr

/-- Python truthiness of `person.get('person_id')`: `None` and `0` are
falsy, any other integer id is truthy. -/
def Detection.personTruthy (d : Detection) : Bool :=
  match d.personId with
  | some n => n != 0
  | none => false

/-- A `Clip_Obj` as produced by phase 1 and consumed by phase 2:
wall-clock start time, camera name, per-frame lists of detections, and
the optional video duration. -/
structure Clip where
  time : ℚ
  cam : String
  peopleDetected : List (List Detection)
  videoDuration : Option ℚ
  deriving DecidableEq, Repr, Inhabited

/-- All detections of a clip in traversal order (the nested
`for frame_people in clip['people_detected']: for person in frame_people`
loops visit exactly the concatenation of the frame lists). -/
def Clip.detections (c : Clip) : List Detection :=
  c.peopleDetected.flatten

/-! ## FusionPolicy (`phase2_event_fusion/fusion_policy.py`) -/

/-- The accumulator of `FusionPolicy._extract_people_set`:
the set of truthy person ids and the two role flags. -/
structure PeopleSet where
  personIds : List Nat
  hasFamily : Bool
  hasStranger : Bool
  deriving DecidableEq, Repr

/-- One step of the extraction loop body: add a truthy `person_id` to the
id set; `if role == 'family'` set the family flag
`elif role == 'stranger'` set the stranger flag. -/
def psStep (ps : PeopleSet) (d : Detection) : PeopleSet :=
  { personIds :=
      match d.personId with
      | some n => if n != 0 then ps.personIds.insert n else ps.personIds
      | none => ps.personIds
    hasFamily := if d.role = "family" then true else ps.hasFamily
    hasStranger :=
      if d.role = "family" then ps.hasStranger
      else if d.role = "stranger" then true else ps.hasStranger }

/-- `FusionPolicy._extract_people_set`, folded over the clip's detections. -/
def extractPeopleSet (c : Clip) : PeopleSet :=
  c.detections.foldl psStep ⟨[], false, false⟩

/-- `all_strangers = has_stranger and not has_family`. -/
def PeopleSet.allStrangers (ps : PeopleSet) : Bool :=
  ps.hasStranger && !ps.hasFamily

/-- `FusionPolicy._check_time_rule`: negative gaps are rejected, otherwise
the gap must be strictly below the threshold (default 60 s). -/
def checkTimeRule (threshold : ℚ) (lastClip curClip : Clip) : Bool :=
  let timeDiff := curClip.time - lastClip.time
  if timeDiff < 0 then false else decide (timeDiff < threshold)

/-- `FusionPolicy._check_identity_rule`: shared truthy person id, or both
clips all-strangers with gap below 10 s, or family on one side and
stranger on the other with gap below 5 s. -/
def checkIdentityRule (lastClip curClip : Clip) : Bool :=
  let lp := extractPeopleSet lastClip
  let cp := extractPeopleSet curClip
  if lp.personIds.any (fun i => cp.personIds.contains i) then true
  else
    let timeDiff := curClip.time - lastClip.time
    if lp.allStrangers && cp.allStrangers && decide (timeDiff < 10) then true
    else if decide (timeDiff < 5) &&
        ((lp.hasFamily && cp.hasStranger) || (lp.hasStranger && cp.hasFamily)) then true
    else false

/-- `FusionPolicy.is_connected`: time rule AND identity rule. -/
def isConnected (threshold : ℚ) (lastClip curClip : Clip) : Bool :=
  checkTimeRule threshold lastClip curClip && checkIdentityRule lastClip curClip

/-- Modelled from the spec (claim C2 wording): the resolved person ids of
a clip, used to state the claimed identity rule (a). -/
def clipResolvedIds (c : Clip) : List Nat :=
  c.detections.filterMap (fun d => d.personId)

/-- Modelled from the spec (claim C2 wording): the clip contains only
strangers (at least one detection, and every detection is a stranger). -/
def OnlyStrangers (c : Clip) : Prop :=
  c.detections ≠ [] ∧ ∀ d ∈ c.detections, d.role = "stranger"

/-- Modelled from the spec (claim C2 wording): the clip contains only
family (at least one detection, and every detection is family). -/
def OnlyFamily (c : Clip) : Prop :=
  c.detections ≠ [] ∧ ∀ d ∈ c.detections, d.role = "family"

/-- Modelled from the spec: the CONNECTED predicate exactly as claim C2
states it (time rule, and identity rule (a) shared resolved id, or
(b) both clips only strangers with gap below 10 s, or (c) one clip only
family and the other only strangers with gap below 5 s). -/
def ClaimedConnected (lastClip curClip : Clip) : Prop :=
  (0 ≤ curClip.time - lastClip.time ∧ curClip.time - lastClip.time < 60) ∧
  ((∃ i ∈ clipResolvedIds lastClip, i ∈ clipResolvedIds curClip) ∨
   (OnlyStrangers lastClip ∧ OnlyStrangers curClip ∧
     curClip.time - lastClip.time < 10) ∨
   (((OnlyFamily lastClip ∧ OnlyStrangers curClip) ∨
     (OnlyStrangers lastClip ∧ OnlyFamily curClip)) ∧
     curClip.time - lastClip.time < 5))

instance (l : Clip) : Decidable (OnlyStrangers l) := by
  unfold OnlyStrangers; infer_instance

instance (l : Clip) : Decidable (OnlyFamily l) := by
  unfold OnlyFamily; infer_instance

instance (l c : Clip) : Decidable (ClaimedConnected l c) := by
  unfold ClaimedConnected; infer_instance

/-- A clip contains a family-role detection (propositional counterpart of
the extraction flag). -/
def ClipHasFamily (c : Clip) : Prop :=
  ∃ d ∈ c.detections, d.role = "family"

/-- A clip contains a stranger-role detection. -/
def ClipHasStranger (c : Clip) : Prop :=
  ∃ d ∈ c.detections, d.role = "stranger"

/-! ## Generic selection helpers -/

/-- The running-best fold shared by `EventAggregator._select_keyframes`
(`if score > best_score` with initial `best_score = -1`) and, as a model
of `ORDER BY ... LIMIT 1` with a threshold, by the arbiter queries:
returns the first element whose score strictly exceeds the threshold and
all later scores. -/
def pickMaxAux {α β : Type} [LinearOrder β] (score : α → β) :
    List α → Option α → β → Option α
  | [], best, _ => best
  | a :: rest, best, bestScore =>
    if bestScore < score a then pickMaxAux score rest (some a) (score a)
    else pickMaxAux score rest best bestScore

/-- `x` is the first element of `L` attaining the maximal score:
everything before it scores strictly less, everything after it scores no
more. -/
def IsEarliestMax {α β : Type} [LinearOrder β] (score : α → β)
    (L : List α) (x : α) : Prop :=
  ∃ l₁ l₂, L = l₁ ++ x :: l₂ ∧ (∀ a ∈ l₁, score a < score x) ∧
    (∀ a ∈ l₂, score a ≤ score x)

/-! ## EventAggregator keyframe selection
(`phase2_event_fusion/event_aggregator.py`) -/

/-- The keyframe record built by `EventAggregator._select_keyframes` for
the best detection of a person. -/
structure Keyframe where
  bbox : Option (ℚ × ℚ × ℚ × ℚ)
  confidence : ℚ
  method : String
  frameIdx : Nat
  clipTime : ℚ
  cam : String
  deriving DecidableEq, Repr

/-- `EventAggregator._calculate_detection_score`: 100 for a face match,
50 for a body match, plus 10 times the confidence, plus 0.01 times the
bbox area. -/
def aggScore (d : Detection) : ℚ :=
  (if d.method = "face" then 100 else if d.method = "body" then 50 else 0)
    + d.confidence * 10
    + (match d.bbox with
       | some (x1, y1, x2, y2) => (x2 - x1) * (y2 - y1) * (1 / 100)
       | none => 0)

/-- The candidates the `_select_keyframes` loops visit for one person:
every detection of the event's clips carrying this `person_id`, in
traversal order, paired with the keyframe record that would be built
from it. -/
def keyframeCandidates (clips : List Clip) (pid : Nat) :
    List (Detection × Keyframe) :=
  (clips.map (fun c =>
    (c.peopleDetected.enum.map (fun fi =>
      ((fi.2.filter (fun d => d.personId == some pid)).map (fun d =>
        (d, ({ bbox := d.bbox, confidence := d.confidence,
               method := d.method, frameIdx := fi.1,
               clipTime := c.time, cam := c.cam } : Keyframe))))
      )).flatten)).flatten

/-- `EventAggregator._select_keyframes` restricted to one person: the
running-best fold over the candidates with initial best score −1. -/
def selectKeyframe (clips : List Clip) (pid : Nat) : Option Keyframe :=
  (pickMaxAux (fun p => aggScore p.1) (keyframeCandidates clips pid)
    none (-1)).map (fun p => p.2)

/-! ## QualitySelector (`phase4_clean_store/quality_selector.py`)

The quality score subtracts half the Euclidean distance of the bbox
center from the assumed frame center (320, 240); the square root forces
the score into `ℝ`, mirroring the Python float computation. -/

/-- `distance_from_center` of `QualitySelector._calculate_score`. -/
noncomputable def frameCenterDist (b : ℚ × ℚ × ℚ × ℚ) : ℝ :=
  Real.sqrt ((((b.1 + b.2.2.1) / 2 - 320) ^ 2 +
    ((b.2.1 + b.2.2.2) / 2 - 240) ^ 2 : ℚ))

/-- `QualitySelector._calculate_score`: 10000 for face, 5000 for body,
0 for new, plus 100 times the confidence, plus the bbox area, minus half
the distance of the bbox center from the frame center. -/
noncomputable def qualityScore (d : Detection) : ℝ :=
  ((if d.method = "face" then (10000 : ℚ)
    else if d.method = "body" then 5000
    else if d.method = "new" then 0 else 0)
    + d.confidence * 100
    + (match d.bbox with
       | some (x1, y1, x2, y2) => (x2 - x1) * (y2 - y1)
       | none => 0) : ℚ)
  - (match d.bbox with
     | some b => frameCenterDist b
     | none => 0) * (1 / 2)

/-- Modelled from the spec (claim C3 wording): `score = 10000·[method=face]
+ 5000·[method=body] + 100·confidence + bbox_area − 0.5·distance from the
frame center`, with a missing bbox contributing no area and no distance. -/
noncomputable def claimedKeyframeScore (d : Detection) : ℝ :=
  (if d.method = "face" then (10000 : ℝ) else 0)
    + (if d.method = "body" then 5000 else 0)
    + 100 * (d.confidence : ℝ)
    + (match d.bbox with
       | some (x1, y1, x2, y2) => ((x2 - x1) * (y2 - y1) : ℚ)
       | none => 0)
    - (1 / 2) * (match d.bbox with
       | some b => frameCenterDist b
       | none => 0)

/-- `QualitySelector.select_best`: empty list yields nothing, a single
detection is returned directly, otherwise the detections are sorted by
descending score with a stable sort (Python `sorted` on `(score, idx,
det)` tuples keyed by the score, `reverse=True`) and the first is
taken. -/
def selectBest {α β : Type} [LinearOrder β] (score : α → β) :
    List α → Option α
  | [] => none
  | [d] => some d
  | l => (l.mergeSort (fun x y => decide (score y ≤ score x))).head?

/-! ## StreamSorter and SessionManager
(`phase2_event_fusion/stream_sorter.py`, `session_manager.py`,
`event_fusion_pipeline.py`)

In this typed embedding every `Clip` necessarily carries the required
fields with the required types, so `StreamSorter._is_valid_clip` holds of
every clip and `sort_and_validate` reduces to the stable sort by start
time (Python `sorted(valid_clips, key=lambda x: x['time'])`). -/

/-- `StreamSorter.sort_and_validate`: stable ascending sort by start time. -/
def sortClips (l : List Clip) : List Clip :=
  l.mergeSort (fun a b => decide (a.time ≤ b.time))

/-- The grouping loop of `Event_Fusion_Pipeline.run` driven by
`SessionManager.process_clip` and `finalize`: each clip joins the current
buffer iff the FusionPolicy connects it to the buffer's last clip,
otherwise the buffer is sealed as one event and a new buffer starts; at
the end the remaining buffer is sealed. -/
def groupAux (threshold : ℚ) : List Clip → List Clip → List (List Clip)
  | buffer, [] => if buffer.isEmpty then [] else [buffer]
  | buffer, c :: rest =>
    match buffer with
    | [] => groupAux threshold [c] rest
    | b :: bs =>
      if isConnected threshold (bs.getLastD b) c then
        groupAux threshold ((b :: bs) ++ [c]) rest
      else (b :: bs) :: groupAux threshold [c] rest

/-- Phase D event grouping: sort, then group with the sliding buffer. -/
def fuseEvents (threshold : ℚ) (clips : List Clip) : List (List Clip) :=
  groupAux threshold [] (sortClips clips)

/-- `EventAggregator.pack`: the event's start time is its first clip's
start time. -/
def eventStartTime (e : List Clip) : ℚ :=
  (e.headD default).time

/-- `EventAggregator.pack`: the event's end time is its last clip's
start time. -/
def eventEndTime (e : List Clip) : ℚ :=
  (e.getLastD default).time

/-! ## IdentityRefiner (`phase2_event_fusion/identity_refiner.py`)

`_analyze_person_appearances` also records `first_seen`, `last_seen` and
the clip indices of each person, but the three refinement rules only read
the appearance count and the role set, so only those are modelled. -/

/-- The per-person statistics read by the refinement rules. -/
structure PersonStat where
  appearances : Nat
  roles : List String
  deriving DecidableEq, Repr

/-- One detection's update of the statistics table
(`stats['appearances'] += 1; stats['roles'].add(role)`), keyed by the
person id, with `None` standing for the `'stranger_unknown'` key. -/
def bumpStat (stats : List (Option Nat × PersonStat)) (k : Option Nat)
    (role : String) : List (Option Nat × PersonStat) :=
  if stats.any (fun e => e.1 == k) then
    stats.map (fun e =>
      if e.1 == k then
        (e.1, { appearances := e.2.appearances + 1,
                roles := if role ∈ e.2.roles then e.2.roles
                         else e.2.roles ++ [role] })
      else e)
  else stats ++ [(k, ⟨1, [role]⟩)]

/-- `IdentityRefiner._analyze_person_appearances` over all clips of the
event. -/
def analyzeAppearances (clips : List Clip) : List (Option Nat × PersonStat) :=
  clips.foldl (fun st c => c.detections.foldl
    (fun st2 d => bumpStat st2 d.personId d.role) st) []

/-- The appearance count of a key, zero when the key is absent (rule 1
guards with `if person_id in person_stats`, rule 2 with
`.get(..., 0)`; both coincide with a zero default). -/
def statsAppearances (stats : List (Option Nat × PersonStat))
    (k : Option Nat) : Nat :=
  match stats.find? (fun e => e.1 == k) with
  | some e => e.2.appearances
  | none => 0

/-- Rule 2's `has_family` scan: some statistics entry other than the
stranger key whose role set contains `family` or `suspected_family`. -/
def statsHasFamily (stats : List (Option Nat × PersonStat)) : Bool :=
  stats.any (fun e => e.1 != none &&
    (e.2.roles.contains "family" || e.2.roles.contains "suspected_family"))

/-- Rule 1 of the per-detection loop of
`IdentityRefiner._refine_clip_identities`: a suspected-family detection
with a truthy person id seen at least three times in the event is
promoted to family.  The loop body (rules 1-3 in order) is applied to
one detection given the already-processed prefix of its frame list and
the untouched rest: the Python code mutates the dicts of `frame_people`
in place, so the rule 3 scan of the frame sees processed detections in
their updated state and later detections in their original state.
Rule 2 also counts the strangers of the current frame into
`stranger_in_clip_count`, but that count is never used in the rule's
condition, so it is not modelled. -/
def refineRule1 (stats : List (Option Nat × PersonStat)) (d : Detection) :
    Detection :=
  if d.role = "suspected_family" ∧ d.personTruthy = true ∧
      3 ≤ statsAppearances stats d.personId then
    { d with role := "family", method := "refined_from_suspected" }
  else d

/-- Rule 2 of the per-detection loop: an id-less stranger is marked
suspected family when the event has a family member and at least three
id-less stranger appearances. -/
def refineRule2 (stats : List (Option Nat × PersonStat)) (d1 : Detection) :
    Detection :=
  if d1.role = "stranger" ∧ d1.personId = none ∧
      statsHasFamily stats = true ∧ 3 ≤ statsAppearances stats none then
    { d1 with role := "suspected_family", method := "refined_from_stranger" }
  else d1

/-- Rule 3 of the per-detection loop: a suspected-family or stranger
detection carrying a truthy person id, whose frame currently holds a
family detection, is promoted to family. -/
def refineRule3 (processed rest : List Detection) (d2 : Detection) :
    Detection :=
  if (d2.role = "suspected_family" ∨ d2.role = "stranger") ∧
      (processed ++ d2 :: rest).any (fun p => p.role == "family") = true ∧
      d2.personTruthy = true then
    { d2 with role := "family", method := "refined_from_context" }
  else d2

/-- The rules applied in order to one detection, exactly as the loop body
runs them. -/
def refineDet (stats : List (Option Nat × PersonStat))
    (processed : List Detection) (d : Detection) (rest : List Detection) :
    Detection :=
  refineRule3 processed rest (refineRule2 stats (refineRule1 stats d))

/-- The in-place pass over one frame list, keeping the processed prefix. -/
def refineFrameAux (stats : List (Option Nat × PersonStat)) :
    List Detection → List Detection → List Detection
  | _, [] => []
  | processed, d :: rest =>
    let d' := refineDet stats processed d rest
    d' :: refineFrameAux stats (processed ++ [d']) rest

/-- `IdentityRefiner._refine_clip_identities` applied to one frame list. -/
def refineFrame (stats : List (Option Nat × PersonStat))
    (frame : List Detection) : List Detection :=
  refineFrameAux stats [] frame

/-- `IdentityRefiner._refine_clip_identities` on one clip. -/
def refineClipDetections (stats : List (Option Nat × PersonStat))
    (c : Clip) : Clip :=
  { c with peopleDetected := c.peopleDetected.map (refineFrame stats) }

/-- The detection-level effect of
`IdentityRefiner.refine_event_identities`: statistics are computed once
from the unrefined clips, then every clip is refined.  (The subsequent
`_reaggregate_people_info` only rebuilds the event's `people` and
`people_info` summaries and never touches the detections, so it is
outside this model.) -/
def refineEventClips (clips : List Clip) : List Clip :=
  clips.map (refineClipDetections (analyzeAppearances clips))

/-! ## IdentityArbiter (`phase1_cv_scanning/identity_arbiter.py`)

The arbiter reads and writes the `persons` and `person_faces` tables.
Each `_match_by_*` helper runs inside its own `try`/`except` that logs
and returns `None` on any exception; since the cache `UPDATE` is only
committed on success, a failing path leaves the store unchanged.  Each
helper therefore takes a `fails` flag modelling "this path raised". -/

/-- A row of the `persons` table, restricted to the columns the arbiter
touches. -/
structure PersonRow where
  id : Nat
  name : String
  role : String
  currentBodyEmbedding : Option (List ℚ)
  bodyUpdateTime : Option ℚ
  lastSeen : Option ℚ
  deriving DecidableEq, Repr

/-- A row of the `person_faces` table. -/
structure FaceRow where
  personId : Nat
  embedding : List ℚ
  deriving DecidableEq, Repr

/-- The store state visible to the arbiter. -/
structure ArbiterDB where
  persons : List PersonRow
  faces : List FaceRow
  deriving DecidableEq, Repr

/-- The similarity thresholds of `IdentityArbiter.__init__` with their
default values. -/
structure ArbiterConfig where
  faceThreshold : ℚ := 13 / 20
  bodyThreshold : ℚ := 3 / 5
  softMatchThreshold : ℚ := 11 / 20
  deriving DecidableEq, Repr

/-- The result dict of `IdentityArbiter.identify`. -/
structure IdentResult where
  personId : Option Nat
  role : String
  method : String
  confidence : ℚ
  bodyEmbedding : Option (List ℚ)
  deriving DecidableEq, Repr

/-- `IdentityArbiter._update_body_cache`: `UPDATE persons SET
current_body_embedding, body_update_time, last_seen WHERE id = pid`. -/
def updateBodyCache (db : ArbiterDB) (pid : Nat) (bodyVec : List ℚ)
    (ts : ℚ) : ArbiterDB :=
  { db with persons := db.persons.map (fun p =>
      if p.id = pid then
        { p with currentBodyEmbedding := some bodyVec,
                 bodyUpdateTime := some ts, lastSeen := some ts }
      else p) }

/-- The `person_faces JOIN persons ON pf.person_id = p.id` row set. -/
def faceJoin (db : ArbiterDB) : List (FaceRow × PersonRow) :=
  (db.faces.map (fun f =>
    (db.persons.filter (fun p => p.id == f.personId)).map
      (fun p => (f, p)))).flatten

/-- `IdentityArbiter._match_by_face`: nearest face above the face
threshold; on a hit, write the body cache iff a body vector is present,
and answer `family` for an owner and the stored role otherwise. -/
def matchByFace (sim : List ℚ → List ℚ → ℚ) (cfg : ArbiterConfig)
    (db : ArbiterDB) (faceVec : List ℚ) (bodyVec : Option (List ℚ))
    (ts : ℚ) (fails : Bool) : Option IdentResult × ArbiterDB :=
  if fails then (none, db) else
  match pickMaxAux (fun fp => sim fp.1.embedding faceVec) (faceJoin db)
      none cfg.faceThreshold with
  | none => (none, db)
  | some (f, p) =>
    let db1 := match bodyVec with
      | some bv => updateBodyCache db p.id bv ts
      | none => db
    (some { personId := some p.id,
            role := if p.role = "owner" then "family" else p.role,
            method := "face",
            confidence := sim f.embedding faceVec,
            bodyEmbedding := bodyVec }, db1)

/-- The `WHERE role = 'owner' AND current_body_embedding IS NOT NULL AND
body_update_time >= timestamp - 48h` candidate rows shared by the body
and soft-body queries. -/
def bodyCandidates (db : ArbiterDB) (ts : ℚ) : List PersonRow :=
  db.persons.filter (fun p =>
    p.role == "owner" && p.currentBodyEmbedding.isSome &&
      (match p.bodyUpdateTime with
       | some t => decide (ts - 172800 ≤ t)
       | none => false))

/-- `IdentityArbiter._match_by_body`: nearest cached owner body above the
body threshold; on a hit, refresh the cache and answer family-by-body. -/
def matchByBody (sim : List ℚ → List ℚ → ℚ) (cfg : ArbiterConfig)
    (db : ArbiterDB) (bodyVec : List ℚ) (ts : ℚ) (fails : Bool) :
    Option IdentResult × ArbiterDB :=
  if fails then (none, db) else
  match pickMaxAux (fun p => sim (p.currentBodyEmbedding.getD []) bodyVec)
      (bodyCandidates db ts) none cfg.bodyThreshold with
  | none => (none, db)
  | some p =>
    (some { personId := some p.id, role := "family", method := "body",
            confidence := sim (p.currentBodyEmbedding.getD []) bodyVec,
            bodyEmbedding := some bodyVec },
     updateBodyCache db p.id bodyVec ts)

/-- `IdentityArbiter._soft_match_by_body`: same candidates, similarity in
the half-open band above the soft threshold and at most the body
threshold; a hit answers `suspected_family` without writing the cache. -/
def softMatchByBody (sim : List ℚ → List ℚ → ℚ) (cfg : ArbiterConfig)
    (db : ArbiterDB) (bodyVec : List ℚ) (ts : ℚ) (fails : Bool) :
    Option IdentResult × ArbiterDB :=
  if fails then (none, db) else
  match pickMaxAux (fun p => sim (p.currentBodyEmbedding.getD []) bodyVec)
      ((bodyCandidates db ts).filter (fun p =>
        decide (sim (p.currentBodyEmbedding.getD []) bodyVec ≤
          cfg.bodyThreshold)))
      none cfg.softMatchThreshold with
  | none => (none, db)
  | some p =>
    (some { personId := some p.id, role := "suspected_family",
            method := "soft_match",
            confidence := sim (p.currentBodyEmbedding.getD []) bodyVec,
            bodyEmbedding := some bodyVec }, db)

/-- `IdentityArbiter.identify`: face path first, then body path, then
soft body path, finally the stranger default with the body vector echoed
when present. -/
def identify (sim : List ℚ → List ℚ → ℚ) (cfg : ArbiterConfig)
    (db : ArbiterDB) (faceVec bodyVec : Option (List ℚ)) (ts : ℚ)
    (failFace failBody failSoft : Bool) : IdentResult × ArbiterDB :=
  let faceOut : Option IdentResult × ArbiterDB :=
    match faceVec with
    | some fv => matchByFace sim cfg db fv bodyVec ts failFace
    | none => (none, db)
  match faceOut with
  | (some res, db1) => (res, db1)
  | (none, _) =>
    match bodyVec with
    | some bv =>
      (match matchByBody sim cfg db bv ts failBody with
       | (some res, db1) => (res, db1)
       | (none, _) =>
         (match softMatchByBody sim cfg db bv ts failSoft with
          | (some res, db1) => (res, db1)
          | (none, _) =>
            ({ personId := none, role := "stranger", method := "new",
               confidence := 0, bodyEmbedding := some bv }, db)))
    | none =>
      ({ personId := none, role := "stranger", method := "new",
         confidence := 0, bodyEmbedding := none }, db)

/-- The store change budget claim C1 allows: the face table is untouched
and every person keeps its identity columns (id, name, role), so only the
three body-cache columns may differ. -/
def CachePreservesIdentity (db db1 : ArbiterDB) : Prop :=
  db1.faces = db.faces ∧
  List.Forall₂ (fun p q => q.id = p.id ∧ q.name = p.name ∧ q.role = p.role)
    db.persons db1.persons

/-! ## FrameSampler (`phase1_cv_scanning/frame_sampler.py`) -/

/-- `skip_step = int(video_fps / fps) if video_fps > 0 and fps > 0 else 30`.
Both rates are positive in the guarded branch, whence Python `int()`
truncation coincides with the floor. -/
def skipStep (videoFps targetFps : ℚ) : Int :=
  if 0 < videoFps ∧ 0 < targetFps then ⌊videoFps / targetFps⌋ else 30

/-- The frame-reading loop: the frame with counter `c` is kept iff
`c % skip_step == 0`.  (When `skip_step = 0` Python would raise a
`ZeroDivisionError` on the first iteration; the model totalises that
case with `Int.emod`, which the theorems never rely on.) -/
def sampleAux {α : Type} (skip : Int) : Int → List α → List α
  | _, [] => []
  | c, f :: rest =>
    if c % skip == 0 then f :: sampleAux skip (c + 1) rest
    else sampleAux skip (c + 1) rest

/-- `FrameSampler.get_frames` restricted to its sampling behaviour over
an abstract list of decoded frames. -/
def getFrames {α : Type} (videoFps targetFps : ℚ) (frames : List α) :
    List α :=
  sampleAux (skipStep videoFps targetFps) 0 frames

/-- Taking every `n`-th frame, described positionally: the frames whose
index is divisible by `n` (the declarative reading of "striding `n`
frames"). -/
def strideSample {α : Type} (n : Int) (frames : List α) : List α :=
  (frames.enum.filter (fun p => (p.1 : Int) % n == 0)).map (fun p => p.2)

/-- Modelled from the spec (claim C6 wording): the claimed stride
`round(source_fps / target_fps)`. -/
def claimedStride (videoFps targetFps : ℚ) : Int :=
  round (videoFps / targetFps)

/-! ## Daily summarization (`phase5_summarize/daily_summary_pipeline.py`,
`archive_persister.py`)

`QueryEngine.fetch_events` and the timeline/LLM stages are collaborators
of the store; they enter the model as oracle parameters `fetchEvents`
(the events of a date, as opaque records) and `llm` (the generated
summary text). -/

/-- A row of the `daily_summaries` table. -/
structure SummaryRow where
  id : Nat
  summaryDate : String
  summaryText : String
  totalEvents : Nat
  createdAt : ℚ
  updatedAt : ℚ
  deriving DecidableEq, Repr

/-- The `daily_summaries` table plus the id sequence. -/
structure SummaryStore where
  rows : List SummaryRow
  nextId : Nat
  deriving DecidableEq, Repr

/-- `ArchivePersister.get_summary`: the row of the date, if any. -/
def getSummary (db : SummaryStore) (d : String) : Option SummaryRow :=
  db.rows.find? (fun r => r.summaryDate == d)

/-- `ArchivePersister.save`: `INSERT ... ON CONFLICT (summary_date) DO
UPDATE SET summary_text, total_events, updated_at RETURNING id`. -/
def saveSummary (db : SummaryStore) (d text : String) (total : Nat)
    (now : ℚ) : Nat × SummaryStore :=
  match db.rows.find? (fun r => r.summaryDate == d) with
  | some r =>
    (r.id, { db with rows := db.rows.map (fun q =>
      if q.summaryDate == d then
        { q with summaryText := text, totalEvents := total,
                 updatedAt := now }
      else q) })
  | none =>
    (db.nextId,
     { rows := db.rows ++ [⟨db.nextId, d, text, total, now, now⟩],
       nextId := db.nextId + 1 })

/-- The generation part of `Daily_Summary_Pipeline.run_for_date`: fetch
the date's events, return `None` without writing when there are none,
otherwise store the LLM summary with the event count. -/
def runForDateCore (fetchEvents : String → List String)
    (llm : String → List String → String) (db : SummaryStore)
    (targetDate : String) (now : ℚ) : Option Nat × SummaryStore :=
  let events := fetchEvents targetDate
  if events.isEmpty then (none, db)
  else
    let summaryText := llm targetDate events
    let out := saveSummary db targetDate summaryText events.length now
    (some out.1, out.2)

/-- `Daily_Summary_Pipeline.run_for_date`: without `force_update`, an
existing summary short-circuits to its id; otherwise regenerate. -/
def runForDate (fetchEvents : String → List String)
    (llm : String → List String → String) (db : SummaryStore)
    (targetDate : String) (forceUpdate : Bool) (now : ℚ) :
    Option Nat × SummaryStore :=
  if forceUpdate = false then
    match getSummary db targetDate with
    | some r => (some r.id, db)
    | none => runForDateCore fetchEvents llm db targetDate now
  else runForDateCore fetchEvents llm db targetDate now

/-! ## User retrieval (`phase6_usr_retrieval/user_retrieval_pipeline.py`,
`rag_synthesis_engine.py`)

Query parsing, store retrieval and snapshot materialization are modelled
as oracle parameters; the LLM gateway call is `some text` on success and
`none` when `generate` raises. -/

/-- One appearance attached to a detail evidence record. -/
structure EvidenceApp where
  personName : String
  matchMethod : String
  snapshotUrl : Option String
  deriving DecidableEq, Repr

/-- One retrieved evidence record (a daily summary or an event detail). -/
structure Evidence where
  etype : String
  startTime : String
  llmDescription : String
  appearances : List EvidenceApp
  deriving DecidableEq, Repr

/-- The result dict of the answer path. -/
structure AnswerResult where
  answer : String
  evidenceCount : Nat
  hasImages : Bool
  images : List String
  deriving DecidableEq, Repr

/-- The fixed polite text of
`RAGSynthesisEngine._generate_no_result_answer`. -/
def noRecordsMessage : String :=
  "抱歉，我没有找到与您的问题相关的记录。请尝试调整查询条件，比如：\n- 检查日期是否正确\n- 确认人物名称\n- 使用不同的关键词"

/-- `RAGSynthesisEngine._generate_no_result_answer`: the fixed message,
zero evidence, no images. -/
def noResultAnswer : AnswerResult :=
  { answer := noRecordsMessage, evidenceCount := 0, hasImages := false,
    images := [] }

/-- The snapshot urls collected from detail evidence (truthy, hence
non-empty, `snapshot_url` values). -/
def evidenceImages (evidence : List Evidence) : List String :=
  (evidence.map (fun e =>
    if e.etype == "detail" then
      e.appearances.filterMap (fun a =>
        match a.snapshotUrl with
        | some u => if u ≠ "" then some u else none
        | none => none)
    else [])).flatten

/-- `RAGSynthesisEngine._generate_fallback_answer`: deterministic
concatenation of the first three detail descriptions when the LLM call
failed. -/
def fallbackAnswer (evidence : List Evidence) : AnswerResult :=
  if evidence.isEmpty then noResultAnswer
  else
    let lines := (evidence.take 3).filterMap (fun e =>
      if e.etype == "detail" then
        some ("- " ++ e.startTime ++ ": " ++
          (e.llmDescription.take 50) ++ "...")
      else none)
    { answer := "根据检索到的 " ++ toString evidence.length ++
        " 条记录，相关信息如下：\n" ++ String.intercalate "\n" lines,
      evidenceCount := evidence.length, hasImages := false, images := [] }

/-- `RAGSynthesisEngine.synthesize`, returning the answer together with
the flag "the LLM gateway was invoked". -/
def synthesize (llmResponse : Option String) (evidence : List Evidence) :
    AnswerResult × Bool :=
  if evidence.isEmpty then (noResultAnswer, false)
  else
    match llmResponse with
    | some text =>
      let images := evidenceImages evidence
      ({ answer := text.trim, evidenceCount := evidence.length,
         hasImages := images.length > 0, images := images }, true)
    | none => (fallbackAnswer evidence, true)

/-- `User_Retrieval_Pipeline.answer`: parse, retrieve, and on zero
retrieved records return the no-result answer directly (the
materializer and the synthesis LLM are never invoked); otherwise
materialize and synthesize.  The Boolean records whether the LLM gateway
was invoked. -/
def answerQuery {σ : Type} (parse : String → σ)
    (retrieve : σ → List Evidence)
    (materialize : List Evidence → List Evidence)
    (llmResponse : Option String) (userQuery : String) :
    AnswerResult × Bool :=
  let queryObj := parse userQuery
  let records := retrieve queryObj
  if records.isEmpty then (noResultAnswer, false)
  else synthesize llmResponse (materialize records)

/-! ## Persister method mapping
(`phase4_clean_store/persistence_pipeline.py`) -/

/-- The `match_method` normalization of `Persistence_Pipeline.save_event`
(lines 144-157): `face`, `body`, `new` and the three `refined_*` methods
are mapped to the storage enum, every other method becomes `unknown`. -/
def normalizeMatchMethod (m : String) : String :=
  if m = "face" then "face"
  else if m = "body" then "body_reid"
  else if m = "new" then "new"
  else if m = "refined_from_suspected" ∨ m = "refined_from_stranger" ∨
      m = "refined_from_context" then "body_reid_refined"
  else "unknown"

/-- A row of the `event_appearances` table as built by `save_event`. -/
structure AppearanceRow where
  eventId : Nat
  personId : Nat
  matchMethod : String
  bodyEmbedding : List ℚ
  deriving DecidableEq, Repr

/-- The per-group body of the `save_event` appearance loop: select the
best detection by the quality score, skip the group when there is none or
when it carries no body embedding, otherwise build the appearance row
with the normalized match method.  (The pgvector string formatting of the
embedding and the optional behaviour-inferred role update are outside
this model.) -/
noncomputable def buildAppearanceRow (eventId personId : Nat)
    (detectionList : List Detection) : Option AppearanceRow :=
  match selectBest qualityScore detectionList with
  | none => none
  | some best =>
    match best.bodyEmbedding with
    | none => none
    | some bv =>
      some { eventId := eventId, personId := personId,
             matchMethod := normalizeMatchMethod best.method,
             bodyEmbedding := bv }

/-! ## Concrete instances used by counterexamples and witnesses -/

/-- A family detection resolved to person 1 (face match). -/
def cexFamilyDet : Detection := ⟨some 1, "family", "face", 9 / 10, none, none⟩

/-- A family detection resolved to person 2 (face match). -/
def cexFamilyDet2 : Detection := ⟨some 2, "family", "face", 9 / 10, none, none⟩

/-- An unresolved stranger detection. -/
def cexStrangerDet : Detection := ⟨none, "stranger", "new", 1 / 2, none, none⟩

/-- A clip at t = 0 containing only the person-1 family detection. -/
def cexLastClip : Clip := ⟨0, "doorbell", [[cexFamilyDet]], none⟩

/-- A clip 3 s later containing a different family member and a stranger. -/
def cexCurClip : Clip := ⟨3, "doorbell", [[cexFamilyDet2, cexStrangerDet]], none⟩

/-- A large centred low-priority detection of person 1: `method = new`,
zero confidence, bbox of area 10500 centred exactly at (320, 240). -/
def cexLargeDet : Detection :=
  ⟨some 1, "stranger", "new", 0, some (245, 205, 395, 275), none⟩

/-- A tiny centred face detection of person 1: full confidence, bbox of
area 4 centred exactly at (320, 240). -/
def cexSmallFaceDet : Detection :=
  ⟨some 1, "family", "face", 1, some (319, 239, 321, 241), none⟩

/-- A clip holding both person-1 detections in one frame. -/
def cexScoreClip : Clip := ⟨0, "doorbell", [[cexLargeDet, cexSmallFaceDet]], none⟩

/-- The event clip list for the refiner counterexample: one clip whose
single frame holds a family detection and an id-less stranger. -/
def cexRefineClips : List Clip := [⟨0, "doorbell", [[cexFamilyDet, cexStrangerDet]], none⟩]

/-- An arbiter store with one enrolled owner whose body cache was last
written at t = 100. -/
def cexOwnerDB : ArbiterDB :=
  ⟨[⟨1, "Alice", "owner", some [5], some 100, some 100⟩], [⟨1, [7]⟩]⟩

/-- An arbiter store whose single face row belongs to a person with role
`visitor` (reachable: the persister's behaviour-inference `UPDATE` can
change an enrolled owner's role to `visitor`). -/
def cexVisitorDB : ArbiterDB :=
  ⟨[⟨2, "Bob", "visitor", none, none, none⟩], [⟨2, [7]⟩]⟩

/-- A constant similarity oracle scoring every comparison 0.9, above all
arbiter thresholds. -/
def cexSim : List ℚ → List ℚ → ℚ := fun _ _ => 9 / 10

/-- A summary store holding one row for 2025-09-01 with 5 events
recorded. -/
def cexSummaryStore : SummaryStore :=
  ⟨[⟨1, "2025-09-01", "old summary", 5, 10, 10⟩], 2⟩

/-- A soft-matched detection carrying a body embedding, as the arbiter's
soft-body path emits it. -/
def cexSoftDet : Detection :=
  ⟨some 3, "suspected_family", "soft_match", 57 / 100, none, some [1]⟩

/-- A suspected-family detection of person 4 carrying an id. -/
def cexSuspectedDet : Detection :=
  ⟨some 4, "suspected_family", "soft_match", 57 / 100, none, none⟩

/-! ## Helper lemmas -/

/-- The head with default of a nonempty list is a member. -/
theorem headD_mem {α : Type} {l : List α} (h : l ≠ []) (d : α) :
    l.headD d ∈ l := by
  cases l with
  | nil => exact absurd rfl h
  | cons a rest => simp

/-- The last element with default of a nonempty list is a member. -/
theorem getLastD_mem {α : Type} :
    ∀ (l : List α), l ≠ [] → ∀ d : α, l.getLastD d ∈ l := by
  intro l
  induction l with
  | nil => intro h; exact absurd rfl h
  | cons a rest ih =>
    intro _ d
    rw [List.getLastD_cons]
    cases hr : rest with
    | nil => simp [hr]
    | cons b bs =>
      have := ih (by simp [hr]) a
      rw [hr] at this
      exact List.mem_cons_of_mem a (hr ▸ this)

/-- Split a list at the first occurrence of a member. -/
theorem first_occurrence_split {α : Type} [DecidableEq α] {a : α} :
    ∀ {l : List α}, a ∈ l → ∃ s t, l = s ++ a :: t ∧ a ∉ s := by
  intro l
  induction l with
  | nil => intro h; simp at h
  | cons b rest ih =>
    intro h
    by_cases hb : b = a
    · exact ⟨[], rest, by simp [hb], by simp⟩
    · have ha : a ∈ rest := by
        rcases List.mem_cons.mp h with h1 | h1
        · exact absurd h1.symm hb
        · exact h1
      obtain ⟨s, t, hst, hns⟩ := ih ha
      refine ⟨b :: s, t, by rw [hst]; rfl, ?_⟩
      intro hmem
      rcases List.mem_cons.mp hmem with h2 | h2
      · exact hb h2.symm
      · exact hns h2

/-- Full characterization of the running-best fold: either nothing in the
list beats the threshold and the initial best is returned, or the result
is the first element attaining the maximal score above the threshold. -/
theorem pickMaxAux_spec {α β : Type} [LinearOrder β] (score : α → β) :
    ∀ (L : List α) (b : Option α) (bs : β),
      (pickMaxAux score L b bs = b ∧ ∀ a ∈ L, score a ≤ bs) ∨
      (∃ l₁ x l₂, L = l₁ ++ x :: l₂ ∧ pickMaxAux score L b bs = some x ∧
        bs < score x ∧ (∀ a ∈ l₁, score a < score x) ∧
        (∀ a ∈ l₂, score a ≤ score x)) := by
  intro L
  induction L with
  | nil => intro b bs; left; exact ⟨rfl, by simp⟩
  | cons a rest ih =>
    intro b bs
    by_cases h : bs < score a
    · rcases ih (some a) (score a) with ⟨heq, hall⟩ | ⟨l₁, x, l₂, hL, heq, hlt, hl₁, hl₂⟩
      · right
        refine ⟨[], a, rest, rfl, ?_, h, by simp, hall⟩
        simpa [pickMaxAux, h] using heq
      · right
        refine ⟨a :: l₁, x, l₂, by rw [hL, List.cons_append], ?_,
          lt_trans h hlt, ?_, hl₂⟩
        · simpa [pickMaxAux, h] using heq
        · intro y hy
          rcases List.mem_cons.mp hy with hy1 | hy1
          · rw [hy1]; exact hlt
          · exact hl₁ y hy1
    · rcases ih b bs with ⟨heq, hall⟩ | ⟨l₁, x, l₂, hL, heq, hlt, hl₁, hl₂⟩
      · left
        constructor
        · simpa [pickMaxAux, h] using heq
        · intro y hy
          rcases List.mem_cons.mp hy with hy1 | hy1
          · rw [hy1]; exact not_lt.mp h
          · exact hall y hy1
      · right
        refine ⟨a :: l₁, x, l₂, by rw [hL, List.cons_append], ?_, hlt, ?_, hl₂⟩
        · simpa [pickMaxAux, h] using heq
        · intro y hy
          rcases List.mem_cons.mp hy with hy1 | hy1
          · rw [hy1]; exact lt_of_le_of_lt (not_lt.mp h) hlt
          · exact hl₁ y hy1

/-- A `some` result of the running-best fold started empty is the first
element attaining the maximal score above the threshold. -/
theorem pickMaxAux_some_isEarliestMax {α β : Type} [LinearOrder β]
    (score : α → β) {L : List α} {bs : β} {x : α}
    (h : pickMaxAux score L none bs = some x) :
    IsEarliestMax score L x ∧ bs < score x := by
  rcases pickMaxAux_spec score L none bs with ⟨heq, -⟩ |
    ⟨l₁, y, l₂, hL, heq, hlt, hl₁, hl₂⟩
  · rw [heq] at h; exact absurd h (by simp)
  · rw [heq] at h
    obtain rfl : y = x := by injection h
    exact ⟨⟨l₁, l₂, hL, hl₁, hl₂⟩, hlt⟩

/-- Membership variant: a `some` result of the running-best fold started
empty is a member of the searched list. -/
theorem pickMaxAux_some_mem {α β : Type} [LinearOrder β]
    (score : α → β) {L : List α} {bs : β} {x : α}
    (h : pickMaxAux score L none bs = some x) : x ∈ L := by
  obtain ⟨⟨l₁, l₂, hL, -, -⟩, -⟩ := pickMaxAux_some_isEarliestMax score h
  rw [hL]; exact List.mem_append_right l₁ (List.mem_cons_self x l₂)

/-- The head of the stable sort by descending score is the first element
of the input attaining the maximal score: a sorted sublist of the input
survives sorting (`List.sublist_mergeSort`), so an earlier element of
equal score would have to precede the head. -/
theorem head_mergeSort_isEarliestMax {α β : Type} [DecidableEq α]
    [LinearOrder β] (score : α → β) {l : List α} {x : α}
    (h : (l.mergeSort (fun a b => decide (score b ≤ score a))).head? = some x) :
    IsEarliestMax score l x := by
  set le := fun a b : α => decide (score b ≤ score a) with hle
  have trans : ∀ (a b c : α), le a b → le b c → le a c := by
    intro a b c hab hbc
    simp only [hle, decide_eq_true_eq] at hab hbc ⊢
    exact le_trans hbc hab
  have total : ∀ (a b : α), le a b || le b a := by
    intro a b
    rcases le_total (score b) (score a) with h1 | h1 <;> simp [hle, h1]
  obtain ⟨rest, hsort⟩ : ∃ rest, l.mergeSort le = x :: rest := by
    cases hs : l.mergeSort le with
    | nil => rw [hs] at h; simp at h
    | cons y ys =>
      rw [hs] at h
      simp only [List.head?_cons, Option.some.injEq] at h
      exact ⟨ys, by rw [h]⟩
  have hperm := List.mergeSort_perm l le
  have hsorted := List.sorted_mergeSort trans total l
  rw [hsort] at hperm hsorted
  have hmax : ∀ a ∈ l, score a ≤ score x := by
    intro a ha
    have hmem : a ∈ x :: rest := hperm.mem_iff.mpr ha
    rcases List.mem_cons.mp hmem with h1 | h1
    · rw [h1]
    · have := (List.pairwise_cons.mp hsorted).1 a h1
      simpa [hle] using this
  have hxl : x ∈ l := hperm.mem_iff.mp (List.mem_cons_self x rest)
  obtain ⟨s, t, hst, hxs⟩ := first_occurrence_split hxl
  refine ⟨s, t, hst, ?_, fun a ha => hmax a
    (by rw [hst]; exact List.mem_append_right s (List.mem_cons_of_mem x ha))⟩
  intro a ha
  have hax : score a ≤ score x := hmax a (by rw [hst]; exact List.mem_append_left _ ha)
  by_contra hcon
  have hscoreeq : score x ≤ score a := not_lt.mp hcon
  have hane : a ≠ x := fun hh => hxs (hh ▸ ha)
  set m := List.count x l with hm
  have hcount : m = 1 + List.count x t := by
    rw [hm, hst]
    simp only [List.count_append, List.count_cons_self,
      List.count_eq_zero_of_not_mem hxs]
    omega
  obtain ⟨p, q, hpq⟩ := List.append_of_mem ha
  have hrep : List.Sublist (List.replicate m x) (x :: t) := by
    rw [← List.le_count_iff_replicate_sublist, hcount]
    simp only [List.count_cons_self]
    omega
  have hsub : List.Sublist (a :: List.replicate m x) l := by
    rw [hst, hpq, List.append_assoc, List.cons_append]
    refine List.sublist_append_of_sublist_right ?_
    exact List.Sublist.cons₂ a (hrep.trans (List.sublist_append_right q (x :: t)))
  have hpw : (a :: List.replicate m x).Pairwise (le · ·) := by
    refine List.pairwise_cons.mpr ⟨?_, ?_⟩
    · intro v hv
      rw [List.eq_of_mem_replicate hv]
      simp [hle, hscoreeq]
    · rw [List.pairwise_replicate]
      simp [hle]
  have hsub2 := List.sublist_mergeSort trans total hpw hsub
  rw [hsort] at hsub2
  have hcrest : List.count x rest + 1 = m :=
    by simpa [List.count_cons, hm] using hperm.count_eq x
  cases hsub2 with
  | cons _ h2 =>
    have hcle := h2.count_le x
    rw [List.count_cons_of_ne (Ne.symm hane), List.count_replicate_self] at hcle
    omega
  | cons₂ h2 => exact hane rfl

/-- `QualitySelector.select_best` returns the first detection attaining
the maximal quality score (instantiated generically over the score). -/
theorem selectBest_isEarliestMax {α β : Type} [DecidableEq α]
    [LinearOrder β] (score : α → β) {l : List α} {x : α}
    (h : selectBest score l = some x) : IsEarliestMax score l x := by
  match l with
  | [] => simp [selectBest] at h
  | [d] =>
    obtain rfl : d = x := by simpa [selectBest] using h
    exact ⟨[], [], rfl, by simp, by simp⟩
  | a :: b :: rest =>
    have h2 : ((a :: b :: rest).mergeSort
        (fun u v => decide (score v ≤ score u))).head? = some x := by
      simpa [selectBest] using h
    exact head_mergeSort_isEarliestMax score h2

/-- Grouping never loses or reorders clips: the groups flatten back to
the buffered prefix followed by the remaining input. -/
theorem groupAux_flatten (threshold : ℚ) :
    ∀ (rest buffer : List Clip),
      (groupAux threshold buffer rest).flatten = buffer ++ rest := by
  intro rest
  induction rest with
  | nil =>
    intro buffer
    cases buffer with
    | nil => simp [groupAux]
    | cons b bs => simp [groupAux]
  | cons c rest ih =>
    intro buffer
    cases buffer with
    | nil => simpa [groupAux] using ih [c]
    | cons b bs =>
      by_cases h : isConnected threshold (bs.getLastD b) c = true
      · simp only [groupAux]
        rw [if_pos h, ih ((b :: bs) ++ [c])]
        simp
      · simp only [groupAux]
        rw [if_neg h]
        rw [List.flatten_cons, ih [c]]
        simp

/-- Every emitted group is nonempty. -/
theorem groupAux_ne_nil (threshold : ℚ) :
    ∀ (rest buffer : List Clip),
      ∀ g ∈ groupAux threshold buffer rest, g ≠ [] := by
  intro rest
  induction rest with
  | nil =>
    intro buffer g hg
    cases buffer with
    | nil => simp [groupAux] at hg
    | cons b bs =>
      simp [groupAux] at hg
      simp [hg]
  | cons c rest ih =>
    intro buffer g hg
    cases buffer with
    | nil => exact ih [c] g (by simpa [groupAux] using hg)
    | cons b bs =>
      simp only [groupAux] at hg
      by_cases h : isConnected threshold (bs.getLastD b) c = true
      · rw [if_pos h] at hg
        exact ih ((b :: bs) ++ [c]) g hg
      · rw [if_neg h] at hg
        rcases List.mem_cons.mp hg with h1 | h1
        · simp [h1]
        · exact ih [c] g h1

/-- If the concatenation of a list of nonempty blocks is sorted, then at
every block boundary the last element of the earlier block is at most
the first element of the later block. -/
theorem chain_of_sorted_flatten :
    ∀ (gs : List (List Clip)),
      (∀ g ∈ gs, g ≠ []) →
      gs.flatten.Pairwise (fun a b => a.time ≤ b.time) →
      List.Chain' (fun e1 e2 => eventEndTime e1 ≤ eventStartTime e2) gs := by
  intro gs
  induction gs with
  | nil => intro _ _; simp
  | cons g1 gs ih =>
    intro hne hsorted
    cases gs with
    | nil => simp
    | cons g2 gs2 =>
      rw [List.flatten_cons, List.pairwise_append] at hsorted
      refine List.chain'_cons.mpr ⟨?_, ih (fun g hg => hne g (List.mem_cons_of_mem g1 hg))
        hsorted.2.1⟩
      have hg1 : g1 ≠ [] := hne g1 (List.mem_cons_self _ _)
      have hg2 : g2 ≠ [] := hne g2 (List.mem_cons_of_mem _ (List.mem_cons_self _ _))
      refine hsorted.2.2 (g1.getLastD default) (getLastD_mem g1 hg1 default)
        (g2.headD default) ?_
      rw [List.flatten_cons]
      exact List.mem_append_left _ (headD_mem hg2 default)

/-- The sorted clip stream is pairwise ordered by start time. -/
theorem sortClips_pairwise (l : List Clip) :
    (sortClips l).Pairwise (fun a b => a.time ≤ b.time) := by
  have trans : ∀ (a b c : Clip), (fun a b : Clip => decide (a.time ≤ b.time)) a b →
      (fun a b : Clip => decide (a.time ≤ b.time)) b c →
      (fun a b : Clip => decide (a.time ≤ b.time)) a c := by
    intro a b c hab hbc
    simp only [decide_eq_true_eq] at hab hbc ⊢
    exact le_trans hab hbc
  have total : ∀ (a b : Clip), ((fun a b : Clip => decide (a.time ≤ b.time)) a b ||
      (fun a b : Clip => decide (a.time ≤ b.time)) b a) := by
    intro a b
    rcases le_total a.time b.time with h1 | h1 <;> simp [h1]
  have := List.sorted_mergeSort trans total l
  exact this.imp (fun h => by simpa using h)

/-- Claim C5 (confirmed): for every list of input clips, adjacent events
in Phase D's output order satisfy end-time(E1) ≤ start-time(E2), where an
event's start time is its first clip's start and its end time its last
clip's start. -/
theorem C5_adjacent_events_ordered (threshold : ℚ) (clips : List Clip) :
    List.Chain' (fun e1 e2 => eventEndTime e1 ≤ eventStartTime e2)
      (fuseEvents threshold clips) := by
  apply chain_of_sorted_flatten
  · exact fun g hg => groupAux_ne_nil threshold (sortClips clips) [] g hg
  · rw [fuseEvents, groupAux_flatten threshold (sortClips clips) []]
    simpa using sortClips_pairwise clips

/-- The family flag of the people-set fold: set iff some visited
detection has role `family`. -/
theorem foldl_psStep_hasFamily :
    ∀ (l : List Detection) (ps : PeopleSet),
      (l.foldl psStep ps).hasFamily =
        (ps.hasFamily || l.any (fun d => d.role == "family")) := by
  intro l
  induction l with
  | nil => intro ps; simp
  | cons d rest ih =>
    intro ps
    rw [List.foldl_cons, ih]
    by_cases h : d.role = "family"
    · simp [psStep, h]
    · have h2 : (d.role == "family") = false := by simpa using h
      simp [psStep, h, h2, Bool.or_assoc]

/-- The stranger flag of the people-set fold: set iff some visited
detection has role `stranger` (the `elif` never fires on a family
detection, whose role cannot simultaneously be `stranger`). -/
theorem foldl_psStep_hasStranger :
    ∀ (l : List Detection) (ps : PeopleSet),
      (l.foldl psStep ps).hasStranger =
        (ps.hasStranger || l.any (fun d => d.role == "stranger")) := by
  intro l
  induction l with
  | nil => intro ps; simp
  | cons d rest ih =>
    intro ps
    rw [List.foldl_cons, ih]
    by_cases h : d.role = "family"
    · have h2 : (d.role == "stranger") = false := by
        rw [h]; decide
    
      simp [psStep, h, h2]
    · by_cases h3 : d.role = "stranger"
      · simp [psStep, h, h3]
      · have h4 : (d.role == "stranger") = false := by
          simpa using h3
        simp [psStep, h, h3, h4, Bool.or_assoc]

/-- Membership in the id set of the people-set fold: a previously present
id, or a truthy id of some visited detection. -/
theorem mem_foldl_psStep_personIds (n : Nat) :
    ∀ (l : List Detection) (ps : PeopleSet),
      n ∈ (l.foldl psStep ps).personIds ↔
        n ∈ ps.personIds ∨ (n ≠ 0 ∧ ∃ d ∈ l, d.personId = some n) := by
  intro l
  induction l with
  | nil => intro ps; simp
  | cons d rest ih =>
    intro ps
    rw [List.foldl_cons, ih]
    cases hd : d.personId with
    | none =>
      simp only [psStep, hd]
      constructor
      · rintro (h | h)
        · exact Or.inl h
        · exact Or.inr ⟨h.1, by
            obtain ⟨d2, hd2, he⟩ := h.2
            exact ⟨d2, List.mem_cons_of_mem d hd2, he⟩⟩
      · rintro (h | ⟨hn, d2, hd2, he⟩)
        · exact Or.inl h
        · rcases List.mem_cons.mp hd2 with h1 | h1
          · rw [h1] at he; rw [he] at hd; cases hd
          · exact Or.inr ⟨hn, d2, h1, he⟩
    | some m =>
      by_cases hm : m = 0
      · subst hm
        simp only [psStep, hd, bne_self_eq_false, Bool.false_eq_true, if_false]
        constructor
        · rintro (h | h)
          · exact Or.inl h
          · exact Or.inr ⟨h.1, by
              obtain ⟨d2, hd2, he⟩ := h.2
              exact ⟨d2, List.mem_cons_of_mem d hd2, he⟩⟩
        · rintro (h | ⟨hn, d2, hd2, he⟩)
          · exact Or.inl h
          · rcases List.mem_cons.mp hd2 with h1 | h1
            · rw [h1] at he; rw [he] at hd
              injection hd with hd
              exact absurd (by omega : n = 0) hn
            · exact Or.inr ⟨hn, d2, h1, he⟩
      · have hm2 : (m != 0) = true := by simpa using hm
        simp only [psStep, hd, hm2, if_true, List.mem_insert_iff]
        constructor
        · rintro (h | h)
          · rcases h with h1 | h1
            · exact Or.inr ⟨h1 ▸ hm, d, List.mem_cons_self d rest, h1 ▸ hd⟩
            · exact Or.inl h1
          · exact Or.inr ⟨h.1, by
              obtain ⟨d2, hd2, he⟩ := h.2
              exact ⟨d2, List.mem_cons_of_mem d hd2, he⟩⟩
        · rintro (h | ⟨hn, d2, hd2, he⟩)
          · exact Or.inl (Or.inr h)
          · rcases List.mem_cons.mp hd2 with h1 | h1
            · rw [h1] at he; rw [he] at hd
              injection hd with hd
              exact Or.inl (Or.inl (by omega))
            · exact Or.inr ⟨hn, d2, h1, he⟩

/-- The extracted family flag is exactly "some detection is family". -/
theorem extract_hasFamily_iff (c : Clip) :
    (extractPeopleSet c).hasFamily = true ↔ ClipHasFamily c := by
  rw [extractPeopleSet, foldl_psStep_hasFamily]
  simp [ClipHasFamily]

/-- The extracted stranger flag is exactly "some detection is a stranger". -/
theorem extract_hasStranger_iff (c : Clip) :
    (extractPeopleSet c).hasStranger = true ↔ ClipHasStranger c := by
  rw [extractPeopleSet, foldl_psStep_hasStranger]
  simp [ClipHasStranger]

/-- Membership in the extracted id set is exactly "some detection carries
this truthy id". -/
theorem extract_mem_personIds_iff (c : Clip) (n : Nat) :
    n ∈ (extractPeopleSet c).personIds ↔
      n ≠ 0 ∧ ∃ d ∈ c.detections, d.personId = some n := by
  rw [extractPeopleSet, mem_foldl_psStep_personIds]
  simp

/-- The time rule holds iff the gap is nonnegative and below the
threshold. -/
theorem checkTimeRule_iff (threshold : ℚ) (lastClip curClip : Clip) :
    checkTimeRule threshold lastClip curClip = true ↔
      (0 ≤ curClip.time - lastClip.time ∧
        curClip.time - lastClip.time < threshold) := by
  rw [checkTimeRule]
  by_cases h : curClip.time - lastClip.time < 0
  · simp only [h, if_true]
    constructor
    · intro hh; cases hh
    · rintro ⟨h1, -⟩; exact absurd h (not_lt.mpr h1)
  · simp only [h, if_false, decide_eq_true_eq]
    exact ⟨fun hh => ⟨not_lt.mp h, hh⟩, fun hh => hh.2⟩

/-- The identity rule holds iff a truthy person id is shared, or both
clips have a stranger and no family member with gap below 10 s, or one
clip has a family member and the other a stranger with gap below 5 s. -/
theorem checkIdentityRule_iff (lastClip curClip : Clip) :
    checkIdentityRule lastClip curClip = true ↔
      ((∃ n, n ≠ 0 ∧ (∃ d ∈ lastClip.detections, d.personId = some n) ∧
          (∃ d ∈ curClip.detections, d.personId = some n)) ∨
       (ClipHasStranger lastClip ∧ ¬ClipHasFamily lastClip ∧
         ClipHasStranger curClip ∧ ¬ClipHasFamily curClip ∧
         curClip.time - lastClip.time < 10) ∨
       (((ClipHasFamily lastClip ∧ ClipHasStranger curClip) ∨
         (ClipHasStranger lastClip ∧ ClipHasFamily curClip)) ∧
         curClip.time - lastClip.time < 5)) := by
  have hshared : ((extractPeopleSet lastClip).personIds.any
      (fun i => (extractPeopleSet curClip).personIds.contains i)) = true ↔
      (∃ n, n ≠ 0 ∧ (∃ d ∈ lastClip.detections, d.personId = some n) ∧
        (∃ d ∈ curClip.detections, d.personId = some n)) := by
    rw [List.any_eq_true]
    constructor
    · rintro ⟨n, hn1, hn2⟩
      have h1 := (extract_mem_personIds_iff lastClip n).mp hn1
      have h2 := (extract_mem_personIds_iff curClip n).mp
        (by simpa using hn2)
      exact ⟨n, h1.1, h1.2, h2.2⟩
    · rintro ⟨n, hn0, hl, hc⟩
      refine ⟨n, (extract_mem_personIds_iff lastClip n).mpr ⟨hn0, hl⟩, ?_⟩
      simpa using (extract_mem_personIds_iff curClip n).mpr ⟨hn0, hc⟩
  have hallAux : ∀ c : Clip, ((extractPeopleSet c).allStrangers = true) ↔
      (ClipHasStranger c ∧ ¬ClipHasFamily c) := by
    intro c
    rw [PeopleSet.allStrangers, Bool.and_eq_true, Bool.not_eq_true']
    constructor
    · rintro ⟨h1, h2⟩
      refine ⟨(extract_hasStranger_iff c).mp h1, fun hf => ?_⟩
      rw [(extract_hasFamily_iff c).mpr hf] at h2
      cases h2
    · rintro ⟨h1, h2⟩
      refine ⟨(extract_hasStranger_iff c).mpr h1, ?_⟩
      cases hfb : (extractPeopleSet c).hasFamily
      · rfl
      · exact absurd ((extract_hasFamily_iff c).mp hfb) h2
  rw [checkIdentityRule]
  by_cases h1 : ((extractPeopleSet lastClip).personIds.any
      (fun i => (extractPeopleSet curClip).personIds.contains i)) = true
  · rw [if_pos h1]
    simp only [true_iff]
    exact Or.inl (hshared.mp h1)
  · rw [if_neg h1]
    by_cases h2 : ((extractPeopleSet lastClip).allStrangers &&
        (extractPeopleSet curClip).allStrangers &&
        decide (curClip.time - lastClip.time < 10)) = true
    · rw [if_pos h2]
      simp only [true_iff]
      refine Or.inr (Or.inl ?_)
      simp only [Bool.and_eq_true, decide_eq_true_eq] at h2
      obtain ⟨⟨ha, hb⟩, hc⟩ := h2
      obtain ⟨hs1, hf1⟩ := (hallAux lastClip).mp ha
      obtain ⟨hs2, hf2⟩ := (hallAux curClip).mp hb
      exact ⟨hs1, hf1, hs2, hf2, hc⟩
    · rw [if_neg h2]
      by_cases h3 : (decide (curClip.time - lastClip.time < 5) &&
          (((extractPeopleSet lastClip).hasFamily &&
            (extractPeopleSet curClip).hasStranger) ||
           ((extractPeopleSet lastClip).hasStranger &&
            (extractPeopleSet curClip).hasFamily))) = true
      · rw [if_pos h3]
        simp only [true_iff]
        refine Or.inr (Or.inr ?_)
        simp only [Bool.and_eq_true, Bool.or_eq_true, decide_eq_true_eq] at h3
        obtain ⟨hc, hd⟩ := h3
        refine ⟨?_, hc⟩
        rcases hd with ⟨hf, hs⟩ | ⟨hs, hf⟩
        · exact Or.inl ⟨(extract_hasFamily_iff lastClip).mp hf,
            (extract_hasStranger_iff curClip).mp hs⟩
        · exact Or.inr ⟨(extract_hasStranger_iff lastClip).mp hs,
            (extract_hasFamily_iff curClip).mp hf⟩
      · rw [if_neg h3]
        constructor
        · intro hh; exact absurd hh (by decide)
        · rintro (hs | ⟨hs1, hf1, hs2, hf2, hd⟩ | ⟨hor, hd⟩)
          · exact absurd (hshared.mpr hs) h1
          · refine absurd ?_ h2
            simp only [Bool.and_eq_true, decide_eq_true_eq]
            exact ⟨⟨(hallAux lastClip).mpr ⟨hs1, hf1⟩,
              (hallAux curClip).mpr ⟨hs2, hf2⟩⟩, hd⟩
          · refine absurd ?_ h3
            simp only [Bool.and_eq_true, Bool.or_eq_true, decide_eq_true_eq]
            refine ⟨hd, ?_⟩
            rcases hor with ⟨hf, hs⟩ | ⟨hs, hf⟩
            · exact Or.inl ⟨(extract_hasFamily_iff lastClip).mpr hf,
                (extract_hasStranger_iff curClip).mpr hs⟩
            · exact Or.inr ⟨(extract_hasStranger_iff lastClip).mpr hs,
                (extract_hasFamily_iff curClip).mpr hf⟩

/-- Claim C2 counterexample: a 3-second gap between a clip with family
member 1 and a clip with family member 2 plus a stranger.  The code
connects them (rule 3 fires: family on one side, a stranger on the
other), but the claimed rule does not (no shared id, the second clip is
not "only strangers", and neither clip is "only family" against an
"only strangers" partner). -/
theorem C2_counterexample :
    isConnected 60 cexLastClip cexCurClip = true ∧
      ¬ClaimedConnected cexLastClip cexCurClip := by
  constructor
  · simp [isConnected, checkTimeRule, checkIdentityRule, extractPeopleSet,
      Clip.detections, cexLastClip, cexCurClip, cexFamilyDet, cexFamilyDet2,
      cexStrangerDet, psStep, PeopleSet.allStrangers]
    norm_num
  · simp [ClaimedConnected, clipResolvedIds, OnlyStrangers, OnlyFamily,
      Clip.detections, cexLastClip, cexCurClip, cexFamilyDet, cexFamilyDet2,
      cexStrangerDet]

/-- Claim C2 amended: the FusionPolicy declares two clips CONNECTED iff
the time rule (0 ≤ gap < threshold) holds and at least one of: (a) the
clips share a truthy resolved person id, (b) both clips contain a
stranger and no family member and the gap is below 10 s, (c) one clip
contains a family member and the other a stranger and the gap is below
5 s. -/
theorem C2_amended (threshold : ℚ) (lastClip curClip : Clip) :
    isConnected threshold lastClip curClip = true ↔
      ((0 ≤ curClip.time - lastClip.time ∧
        curClip.time - lastClip.time < threshold) ∧
       ((∃ n, n ≠ 0 ∧ (∃ d ∈ lastClip.detections, d.personId = some n) ∧
           (∃ d ∈ curClip.detections, d.personId = some n)) ∨
        (ClipHasStranger lastClip ∧ ¬ClipHasFamily lastClip ∧
          ClipHasStranger curClip ∧ ¬ClipHasFamily curClip ∧
          curClip.time - lastClip.time < 10) ∨
        (((ClipHasFamily lastClip ∧ ClipHasStranger curClip) ∨
          (ClipHasStranger lastClip ∧ ClipHasFamily curClip)) ∧
          curClip.time - lastClip.time < 5))) := by
  rw [isConnected, Bool.and_eq_true, checkTimeRule_iff, checkIdentityRule_iff]

/-- Witness for the amended claim C2 at the counterexample clips: the
code connects them, and the amended rule explains why. -/
theorem C2_amended_witness :
    (0 ≤ cexCurClip.time - cexLastClip.time ∧
      cexCurClip.time - cexLastClip.time < 60) ∧
    ((∃ n, n ≠ 0 ∧ (∃ d ∈ cexLastClip.detections, d.personId = some n) ∧
        (∃ d ∈ cexCurClip.detections, d.personId = some n)) ∨
     (ClipHasStranger cexLastClip ∧ ¬ClipHasFamily cexLastClip ∧
       ClipHasStranger cexCurClip ∧ ¬ClipHasFamily cexCurClip ∧
       cexCurClip.time - cexLastClip.time < 10) ∨
     (((ClipHasFamily cexLastClip ∧ ClipHasStranger cexCurClip) ∨
       (ClipHasStranger cexLastClip ∧ ClipHasFamily cexCurClip)) ∧
       cexCurClip.time - cexLastClip.time < 5)) :=
  (C2_amended 60 cexLastClip cexCurClip).mp (by
    simp [isConnected, checkTimeRule, checkIdentityRule, extractPeopleSet,
      Clip.detections, cexLastClip, cexCurClip, cexFamilyDet, cexFamilyDet2,
      cexStrangerDet, psStep, PeopleSet.allStrangers]
    norm_num)

/-- A family detection passes through the refinement rules unchanged:
none of the three rules applies to role `family`. -/
theorem refineDet_of_family (stats : List (Option Nat × PersonStat))
    (processed : List Detection) (d : Detection) (rest : List Detection)
    (h : d.role = "family") : refineDet stats processed d rest = d := by
  simp [refineDet, refineRule1, refineRule2, refineRule3, h]

/-- Rule 3 in action: a suspected-family or stranger detection with a
truthy person id sharing its frame with a family detection (before or
after it in the in-place pass) is promoted to family, by rule 3 unless
rule 1 already promoted it. -/
theorem refineDet_promotes (stats : List (Option Nat × PersonStat))
    (processed : List Detection) (d : Detection) (rest : List Detection)
    (hrole : d.role = "suspected_family" ∨ d.role = "stranger")
    (hpid : d.personTruthy = true)
    (hfam : ∃ w, (w ∈ processed ∨ w ∈ rest) ∧ w.role = "family") :
    (refineDet stats processed d rest).role = "family" ∧
    ((refineDet stats processed d rest).method = "refined_from_context" ∨
      (refineDet stats processed d rest).method = "refined_from_suspected") ∧
    (refineDet stats processed d rest).personId = d.personId := by
  have hpidne : d.personId ≠ none := by
    intro hh
    rw [Detection.personTruthy, hh] at hpid
    cases hpid
  have hany : ((processed ++ d :: rest).any
      (fun p => p.role == "family")) = true := by
    rw [List.any_eq_true]
    obtain ⟨w, hw, hwrole⟩ := hfam
    refine ⟨w, ?_, by simp [hwrole]⟩
    rcases hw with hw | hw
    · exact List.mem_append_left _ hw
    · exact List.mem_append_right _ (List.mem_cons_of_mem d hw)
  by_cases h1 : (d.role = "suspected_family" ∧ d.personTruthy = true ∧
      3 ≤ statsAppearances stats d.personId)
  · have e1 : refineRule1 stats d =
        { d with role := "family", method := "refined_from_suspected" } := by
      rw [refineRule1, if_pos h1]
    rw [refineDet, e1]
    simp [refineRule2, refineRule3]
  · have e1 : refineRule1 stats d = d := by rw [refineRule1, if_neg h1]
    have e2 : refineRule2 stats d = d := by
      rw [refineRule2, if_neg]
      rintro ⟨-, hnone, -, -⟩
      exact hpidne hnone
    have e3 : refineRule3 processed rest d =
        { d with role := "family", method := "refined_from_context" } := by
      rw [refineRule3, if_pos ⟨hrole, hany, hpid⟩]
    rw [refineDet, e1, e2, e3]
    simp

/-- The in-place pass promotes every truthy-id suspected-family or
stranger detection of a frame that contains a family detection. -/
theorem refineFrameAux_promotes (stats : List (Option Nat × PersonStat)) :
    ∀ (frame processed : List Detection),
      (∃ w, (w ∈ processed ∨ w ∈ frame) ∧ w.role = "family") →
      ∀ i d, frame.get? i = some d →
        (d.role = "suspected_family" ∨ d.role = "stranger") →
        d.personTruthy = true →
        ∃ e, (refineFrameAux stats processed frame).get? i = some e ∧
          e.role = "family" ∧
          (e.method = "refined_from_context" ∨
            e.method = "refined_from_suspected") ∧
          e.personId = d.personId := by
  intro frame
  induction frame with
  | nil => intro processed _ i d hd; simp at hd
  | cons a rest ih =>
    intro processed hfam i d hd hrole hpid
    cases i with
    | zero =>
      obtain rfl : a = d := by simpa using hd
      have hw : ∃ w, (w ∈ processed ∨ w ∈ rest) ∧ w.role = "family" := by
        obtain ⟨w, hw1, hw2⟩ := hfam
        rcases hw1 with hw1 | hw1
        · exact ⟨w, Or.inl hw1, hw2⟩
        · rcases List.mem_cons.mp hw1 with hww | hww
          · exfalso
            rw [hww] at hw2
            rcases hrole with hr | hr <;> (rw [hr] at hw2; simp at hw2)
          · exact ⟨w, Or.inr hww, hw2⟩
      have hmain := refineDet_promotes stats processed a rest hrole hpid hw
      exact ⟨refineDet stats processed a rest, by simp [refineFrameAux],
        hmain.1, hmain.2.1, hmain.2.2⟩
    | succ j =>
      have hd2 : rest.get? j = some d := by simpa using hd
      have hfam2 : ∃ w,
          (w ∈ processed ++ [refineDet stats processed a rest] ∨ w ∈ rest) ∧
          w.role = "family" := by
        obtain ⟨w, hw1, hw2⟩ := hfam
        rcases hw1 with hw1 | hw1
        · exact ⟨w, Or.inl (List.mem_append_left _ hw1), hw2⟩
        · rcases List.mem_cons.mp hw1 with hww | hww
          · have haf : a.role = "family" := by rw [← hww]; exact hw2
            have heq : refineDet stats processed a rest = a :=
              refineDet_of_family stats processed a rest haf
            refine ⟨a, Or.inl (List.mem_append_right _ ?_), haf⟩
            rw [heq]
            exact List.mem_singleton_self a
          · exact ⟨w, Or.inr hww, hw2⟩
      obtain ⟨e, he, hprops⟩ :=
        ih (processed ++ [refineDet stats processed a rest]) hfam2 j d hd2
          hrole hpid
      exact ⟨e, by simpa [refineFrameAux] using he, hprops⟩

/-- Claim C4 counterexample: an event with one clip whose single frame
holds a family detection and an id-less stranger.  The claim promotes
the stranger to family via rule 3; the code leaves it a stranger because
the promotion requires a truthy `person_id`.  (Rule 2 does not apply
either: fewer than three stranger appearances.) -/
theorem C4_counterexample :
    (refineEventClips cexRefineClips).map (fun c =>
      c.peopleDetected.map (fun f => f.map (fun d => (d.role, d.method)))) =
      [[[("family", "face"), ("stranger", "new")]]] := by
  simp [refineEventClips, cexRefineClips, analyzeAppearances, bumpStat,
    Clip.detections, cexFamilyDet, cexStrangerDet, refineClipDetections,
    refineFrame, refineFrameAux, refineDet, refineRule1, refineRule2,
    refineRule3, statsAppearances, statsHasFamily, Detection.personTruthy]

/-- Claim C4 amended: in the Phase E identity refiner, every detection
resolved as suspected_family or stranger that carries a truthy person id
and appears in the same frame list as a family detection is promoted to
family; its method is refined_from_context, unless rule 1 (at least
three suspected appearances) already promoted it, in which case it is
refined_from_suspected. -/
theorem C4_amended (clips : List Clip) (ci fi i : Nat) (c : Clip)
    (frame : List Detection) (d : Detection)
    (hc : clips.get? ci = some c)
    (hf : c.peopleDetected.get? fi = some frame)
    (hfam : ∃ w ∈ frame, w.role = "family")
    (hd : frame.get? i = some d)
    (hrole : d.role = "suspected_family" ∨ d.role = "stranger")
    (hpid : d.personTruthy = true) :
    ∃ c2 frame2 e, (refineEventClips clips).get? ci = some c2 ∧
      c2.peopleDetected.get? fi = some frame2 ∧ frame2.get? i = some e ∧
      e.role = "family" ∧
      (e.method = "refined_from_context" ∨
        e.method = "refined_from_suspected") ∧
      e.personId = d.personId := by
  obtain ⟨e, he, hprops⟩ := refineFrameAux_promotes (analyzeAppearances clips)
    frame []
    (by obtain ⟨w, hw1, hw2⟩ := hfam; exact ⟨w, Or.inr hw1, hw2⟩)
    i d hd hrole hpid
  refine ⟨refineClipDetections (analyzeAppearances clips) c,
    refineFrame (analyzeAppearances clips) frame, e, ?_, ?_, ?_,
    hprops.1, hprops.2.1, hprops.2.2⟩
  · rw [refineEventClips, List.get?_map, hc]
    rfl
  · rw [refineClipDetections]
    simp only [List.get?_map, hf]
    rfl
  · simpa [refineFrame] using he

/-- Witness for the amended claim C4: a frame holding a family detection
and a suspected-family detection of person 4; the latter is promoted. -/
theorem C4_amended_witness :
    ∃ c2 frame2 e,
      (refineEventClips
        [⟨0, "doorbell", [[cexFamilyDet, cexSuspectedDet]], none⟩]).get? 0 =
        some c2 ∧
      c2.peopleDetected.get? 0 = some frame2 ∧ frame2.get? 1 = some e ∧
      e.role = "family" ∧
      (e.method = "refined_from_context" ∨
        e.method = "refined_from_suspected") ∧
      e.personId = cexSuspectedDet.personId :=
  C4_amended [⟨0, "doorbell", [[cexFamilyDet, cexSuspectedDet]], none⟩]
    0 0 1 ⟨0, "doorbell", [[cexFamilyDet, cexSuspectedDet]], none⟩
    [cexFamilyDet, cexSuspectedDet] cexSuspectedDet
    rfl rfl ⟨cexFamilyDet, by simp, rfl⟩ rfl (Or.inl rfl) rfl

/-- No store change preserves identity columns. -/
theorem cachePreservesIdentity_refl (db : ArbiterDB) :
    CachePreservesIdentity db db := by
  refine ⟨rfl, ?_⟩
  rw [List.forall₂_same]
  exact fun p _ => ⟨rfl, rfl, rfl⟩

/-- The cache update touches only the three body-cache columns of the
matched person: ids, names and roles survive. -/
theorem cachePreservesIdentity_update (db : ArbiterDB) (pid : Nat)
    (bodyVec : List ℚ) (ts : ℚ) :
    CachePreservesIdentity db (updateBodyCache db pid bodyVec ts) := by
  refine ⟨rfl, ?_⟩
  rw [updateBodyCache]
  rw [List.forall₂_map_right_iff, List.forall₂_same]
  intro p _
  by_cases h : p.id = pid
  · simp [h]
  · simp [h]

/-- The outcome of `identify` without failures, by path: a face hit
writes the cache exactly when a body vector is present, a body hit
always writes it, a soft match and a miss never do. -/
theorem identify_out_characterization (sim : List ℚ → List ℚ → ℚ)
    (cfg : ArbiterConfig) (db : ArbiterDB) (fv bv : Option (List ℚ))
    (ts : ℚ) :
    ((identify sim cfg db fv bv ts false false false).1.method = "face" ∧
      ((bv = none ∧ (identify sim cfg db fv bv ts false false false).2 = db) ∨
       (∃ pid b,
         (identify sim cfg db fv bv ts false false false).1.personId = some pid ∧
         bv = some b ∧
         (identify sim cfg db fv bv ts false false false).2 =
           updateBodyCache db pid b ts))) ∨
    ((identify sim cfg db fv bv ts false false false).1.method = "body" ∧
      (∃ pid b,
        (identify sim cfg db fv bv ts false false false).1.personId = some pid ∧
        bv = some b ∧
        (identify sim cfg db fv bv ts false false false).2 =
          updateBodyCache db pid b ts)) ∨
    (((identify sim cfg db fv bv ts false false false).1.method = "soft_match" ∨
      (identify sim cfg db fv bv ts false false false).1.method = "new") ∧
      (identify sim cfg db fv bv ts false false false).2 = db) := by
  cases fv with
  | some f =>
    cases hpF : pickMaxAux (fun fp => sim fp.1.embedding f) (faceJoin db)
        none cfg.faceThreshold with
    | some fp =>
      cases bv with
      | none =>
        refine Or.inl ⟨?_, Or.inl ⟨rfl, ?_⟩⟩ <;>
          simp [identify, matchByFace, hpF]
      | some b =>
        refine Or.inl ⟨?_, Or.inr ⟨fp.2.id, b, ?_, rfl, ?_⟩⟩ <;>
          simp [identify, matchByFace, hpF]
    | none =>
      cases bv with
      | none =>
        refine Or.inr (Or.inr ⟨Or.inr ?_, ?_⟩) <;>
          simp [identify, matchByFace, hpF]
      | some b =>
        cases hpB : pickMaxAux
            (fun p => sim (p.currentBodyEmbedding.getD []) b)
            (bodyCandidates db ts) none cfg.bodyThreshold with
        | some p =>
          refine Or.inr (Or.inl ⟨?_, p.id, b, ?_, rfl, ?_⟩) <;>
            simp [identify, matchByFace, matchByBody, hpF, hpB]
        | none =>
          cases hpS : pickMaxAux
              (fun p => sim (p.currentBodyEmbedding.getD []) b)
              ((bodyCandidates db ts).filter (fun p =>
                decide (sim (p.currentBodyEmbedding.getD []) b ≤
                  cfg.bodyThreshold)))
              none cfg.softMatchThreshold with
          | some p =>
            refine Or.inr (Or.inr ⟨Or.inl ?_, ?_⟩) <;>
              simp [identify, matchByFace, matchByBody, softMatchByBody,
                hpF, hpB, hpS]
          | none =>
            refine Or.inr (Or.inr ⟨Or.inr ?_, ?_⟩) <;>
              simp [identify, matchByFace, matchByBody, softMatchByBody,
                hpF, hpB, hpS]
  | none =>
    cases bv with
    | none =>
      refine Or.inr (Or.inr ⟨Or.inr ?_, ?_⟩) <;> simp [identify]
    | some b =>
      cases hpB : pickMaxAux
          (fun p => sim (p.currentBodyEmbedding.getD []) b)
          (bodyCandidates db ts) none cfg.bodyThreshold with
      | some p =>
        refine Or.inr (Or.inl ⟨?_, p.id, b, ?_, rfl, ?_⟩) <;>
          simp [identify, matchByBody, hpB]
      | none =>
        cases hpS : pickMaxAux
            (fun p => sim (p.currentBodyEmbedding.getD []) b)
            ((bodyCandidates db ts).filter (fun p =>
              decide (sim (p.currentBodyEmbedding.getD []) b ≤
                cfg.bodyThreshold)))
            none cfg.softMatchThreshold with
        | some p =>
          refine Or.inr (Or.inr ⟨Or.inl ?_, ?_⟩) <;>
            simp [identify, matchByBody, softMatchByBody, hpB, hpS]
        | none =>
          refine Or.inr (Or.inr ⟨Or.inr ?_, ?_⟩) <;>
            simp [identify, matchByBody, softMatchByBody, hpB, hpS]

/-- Claim C1 amended: the body cache (current body embedding, body update
time, last seen) is written on a face hit exactly when a body vector is
present, and on every body hit; it is never written on a soft-body hit
or a miss; and identify changes no stored state besides the matched
person's three cache columns. -/
theorem C1_amended (sim : List ℚ → List ℚ → ℚ) (cfg : ArbiterConfig)
    (db : ArbiterDB) (fv bv : Option (List ℚ)) (ts : ℚ) :
    ((identify sim cfg db fv bv ts false false false).1.method = "face" ∧
        bv = none →
      (identify sim cfg db fv bv ts false false false).2 = db) ∧
    (∀ b, (identify sim cfg db fv bv ts false false false).1.method = "face" ∧
        bv = some b →
      ∃ pid, (identify sim cfg db fv bv ts false false false).1.personId =
          some pid ∧
        (identify sim cfg db fv bv ts false false false).2 =
          updateBodyCache db pid b ts) ∧
    ((identify sim cfg db fv bv ts false false false).1.method = "body" →
      ∃ pid b, bv = some b ∧
        (identify sim cfg db fv bv ts false false false).1.personId =
          some pid ∧
        (identify sim cfg db fv bv ts false false false).2 =
          updateBodyCache db pid b ts) ∧
    ((identify sim cfg db fv bv ts false false false).1.method = "soft_match" ∨
        (identify sim cfg db fv bv ts false false false).1.method = "new" →
      (identify sim cfg db fv bv ts false false false).2 = db) ∧
    CachePreservesIdentity db
      (identify sim cfg db fv bv ts false false false).2 := by
  have hchar := identify_out_characterization sim cfg db fv bv ts
  refine ⟨?_, ?_, ?_, ?_, ?_⟩
  · rintro ⟨hm, hbv⟩
    rcases hchar with ⟨-, h⟩ | ⟨hm2, -⟩ | ⟨hm2, -⟩
    · rcases h with ⟨-, h⟩ | ⟨pid, b, -, hb, -⟩
      · exact h
      · rw [hbv] at hb; cases hb
    · rw [hm] at hm2; simp at hm2
    · rcases hm2 with hm2 | hm2 <;> (rw [hm] at hm2; simp at hm2)
  · rintro b ⟨hm, hbv⟩
    rcases hchar with ⟨-, h⟩ | ⟨hm2, -⟩ | ⟨hm2, -⟩
    · rcases h with ⟨hb, -⟩ | ⟨pid, b2, hpid, hb2, hupd⟩
      · rw [hbv] at hb; cases hb
      · rw [hbv] at hb2
        injection hb2 with hb2
        subst hb2
        exact ⟨pid, hpid, hupd⟩
    · rw [hm] at hm2; simp at hm2
    · rcases hm2 with hm2 | hm2 <;> (rw [hm] at hm2; simp at hm2)
  · intro hm
    rcases hchar with ⟨hm2, -⟩ | ⟨-, pid, b, hpid, hb, hupd⟩ | ⟨hm2, -⟩
    · rw [hm] at hm2; simp at hm2
    · exact ⟨pid, b, hb, hpid, hupd⟩
    · rcases hm2 with hm2 | hm2 <;> (rw [hm] at hm2; simp at hm2)
  · intro hm
    rcases hchar with ⟨hm2, -⟩ | ⟨hm2, -⟩ | ⟨-, h⟩
    · rcases hm with hm | hm <;> (rw [hm] at hm2; simp at hm2)
    · rcases hm with hm | hm <;> (rw [hm] at hm2; simp at hm2)
    · exact h
  · rcases hchar with ⟨-, h⟩ | ⟨-, pid, b, -, -, h⟩ | ⟨-, h⟩
    · rcases h with ⟨-, h⟩ | ⟨pid, b, -, -, h⟩
      · rw [h]; exact cachePreservesIdentity_refl db
      · rw [h]; exact cachePreservesIdentity_update db pid b ts
    · rw [h]; exact cachePreservesIdentity_update db pid b ts
    · rw [h]; exact cachePreservesIdentity_refl db

/-- Claim C1 counterexample: a successful face hit with no body vector
leaves the store untouched — the matched person's body-update time stays
at 100 although the clip time is 200, so the cache is not updated on
every successful face hit. -/
theorem C1_counterexample :
    (identify cexSim {} cexOwnerDB (some [3]) none 200 false false
        false).1.method = "face" ∧
    (identify cexSim {} cexOwnerDB (some [3]) none 200 false false
        false).2 = cexOwnerDB ∧
    cexOwnerDB.persons.map (fun p => p.bodyUpdateTime) = [some 100] := by
  have hpick : pickMaxAux (fun fp => cexSim fp.1.embedding [3])
      (faceJoin cexOwnerDB) none ({} : ArbiterConfig).faceThreshold =
      some (⟨1, [7]⟩, ⟨1, "Alice", "owner", some [5], some 100, some 100⟩) := by
    simp [pickMaxAux, faceJoin, cexOwnerDB, cexSim, ArbiterConfig.faceThreshold]
    norm_num
  refine ⟨?_, ?_, rfl⟩ <;> simp [identify, matchByFace, hpick]

/-- Witness for the amended claim C1: the face hit with no body vector
from the counterexample leaves the store unchanged, as the amended claim
prescribes. -/
theorem C1_amended_witness :
    (identify cexSim {} cexOwnerDB (some [3]) none 200 false false
        false).2 = cexOwnerDB := by
  refine (C1_amended cexSim {} cexOwnerDB (some [3]) none 200).1 ⟨?_, rfl⟩
  have hpick : pickMaxAux (fun fp => cexSim fp.1.embedding [3])
      (faceJoin cexOwnerDB) none ({} : ArbiterConfig).faceThreshold =
      some (⟨1, [7]⟩, ⟨1, "Alice", "owner", some [5], some 100, some 100⟩) := by
    simp [pickMaxAux, faceJoin, cexOwnerDB, cexSim, ArbiterConfig.faceThreshold]
    norm_num
  simp [identify, matchByFace, hpick]

/-- Membership in the face-person join decomposes into table rows. -/
theorem mem_faceJoin {db : ArbiterDB} {fp : FaceRow × PersonRow}
    (h : fp ∈ faceJoin db) :
    fp.1 ∈ db.faces ∧ fp.2 ∈ db.persons ∧ fp.2.id = fp.1.personId := by
  rw [faceJoin] at h
  simp only [List.mem_flatten, List.mem_map] at h
  obtain ⟨l, ⟨f, hf, rfl⟩, hmem⟩ := h
  simp only [List.mem_map] at hmem
  obtain ⟨p, hp, rfl⟩ := hmem
  have hp2 := List.mem_filter.mp hp
  exact ⟨hf, hp2.1, by simpa using hp2.2⟩

/-- Claim C9 amended: identify is total; provided every face row belongs
to an owner-role person (the enrollment invariant), the returned role is
family, suspected_family or stranger; and when every store path fails
with an exception, identify degrades to the stranger result (person id
none, method new, confidence 0, body vector echoed) with the store
unchanged, instead of propagating the error. -/
theorem C9_amended (sim : List ℚ → List ℚ → ℚ) (cfg : ArbiterConfig)
    (db : ArbiterDB) (fv bv : Option (List ℚ)) (ts : ℚ)
    (hface : ∀ f ∈ db.faces, ∀ p ∈ db.persons, p.id = f.personId →
      p.role = "owner") :
    (identify sim cfg db fv bv ts false false false).1.role ∈
      (["family", "suspected_family", "stranger"] : List String) ∧
    identify sim cfg db fv bv ts true true true =
      ({ personId := none, role := "stranger", method := "new",
         confidence := 0, bodyEmbedding := bv }, db) := by
  constructor
  · cases fv with
    | some f =>
      cases hpF : pickMaxAux (fun fp => sim fp.1.embedding f) (faceJoin db)
          none cfg.faceThreshold with
      | some fp =>
        have hmem := mem_faceJoin (pickMaxAux_some_mem _ hpF)
        have hrole : fp.2.role = "owner" :=
          hface fp.1 hmem.1 fp.2 hmem.2.1 hmem.2.2
        cases bv <;>
          simp [identify, matchByFace, hpF, hrole]
      | none =>
        cases bv with
        | none => simp [identify, matchByFace, hpF]
        | some b =>
          cases hpB : pickMaxAux
              (fun p => sim (p.currentBodyEmbedding.getD []) b)
              (bodyCandidates db ts) none cfg.bodyThreshold with
          | some p => simp [identify, matchByFace, matchByBody, hpF, hpB]
          | none =>
            cases hpS : pickMaxAux
                (fun p => sim (p.currentBodyEmbedding.getD []) b)
                ((bodyCandidates db ts).filter (fun p =>
                  decide (sim (p.currentBodyEmbedding.getD []) b ≤
                    cfg.bodyThreshold)))
                none cfg.softMatchThreshold with
            | some p =>
              simp [identify, matchByFace, matchByBody, softMatchByBody,
                hpF, hpB, hpS]
            | none =>
              simp [identify, matchByFace, matchByBody, softMatchByBody,
                hpF, hpB, hpS]
    | none =>
      cases bv with
      | none => simp [identify]
      | some b =>
        cases hpB : pickMaxAux
            (fun p => sim (p.currentBodyEmbedding.getD []) b)
            (bodyCandidates db ts) none cfg.bodyThreshold with
        | some p => simp [identify, matchByBody, hpB]
        | none =>
          cases hpS : pickMaxAux
              (fun p => sim (p.currentBodyEmbedding.getD []) b)
              ((bodyCandidates db ts).filter (fun p =>
                decide (sim (p.currentBodyEmbedding.getD []) b ≤
                  cfg.bodyThreshold)))
              none cfg.softMatchThreshold with
          | some p => simp [identify, matchByBody, softMatchByBody, hpB, hpS]
          | none => simp [identify, matchByBody, softMatchByBody, hpB, hpS]
  · cases fv <;> cases bv <;>
      simp [identify, matchByFace, matchByBody, softMatchByBody]

/-- Claim C9 counterexample: with a face row owned by a visitor-role
person (reachable after a behaviour-inference role update), a face hit
returns role `visitor`, which is none of family, suspected_family,
stranger. -/
theorem C9_counterexample :
    (identify cexSim {} cexVisitorDB (some [3]) none 200 false false
        false).1.role = "visitor" ∧
    ¬((identify cexSim {} cexVisitorDB (some [3]) none 200 false false
          false).1.role ∈
        (["family", "suspected_family", "stranger"] : List String)) := by
  have hpick : pickMaxAux (fun fp => cexSim fp.1.embedding [3])
      (faceJoin cexVisitorDB) none ({} : ArbiterConfig).faceThreshold =
      some (⟨2, [7]⟩, ⟨2, "Bob", "visitor", none, none, none⟩) := by
    simp [pickMaxAux, faceJoin, cexVisitorDB, cexSim,
      ArbiterConfig.faceThreshold]
    norm_num
  constructor <;> simp [identify, matchByFace, hpick]

/-- Witness for the amended claim C9 on the owner-enrolled store: the
role stays in the allowed set and total failure degrades to the stranger
result. -/
theorem C9_amended_witness :
    (identify cexSim {} cexOwnerDB (some [3]) (some [4]) 200 false false
        false).1.role ∈
      (["family", "suspected_family", "stranger"] : List String) ∧
    identify cexSim {} cexOwnerDB (some [3]) (some [4]) 200 true true true =
      ({ personId := none, role := "stranger", method := "new",
         confidence := 0, bodyEmbedding := some [4] }, cexOwnerDB) :=
  C9_amended cexSim {} cexOwnerDB (some [3]) (some [4]) 200 (by decide)

/-- The sampling loop keeps exactly the frames whose counter is divisible
by the skip step. -/
theorem sampleAux_eq_strideFilter {α : Type} (skip : Int) :
    ∀ (l : List α) (c : Nat),
      sampleAux skip (c : Int) l =
        ((l.enumFrom c).filter (fun p => ((p.1 : Int) % skip == 0))).map
          (fun p => p.2) := by
  intro l
  induction l with
  | nil => intro c; simp [sampleAux]
  | cons f rest ih =>
    intro c
    have hc : ((c : Int) + 1) = ((c + 1 : Nat) : Int) := by push_cast; ring
    by_cases h : ((c : Int) % skip == 0) = true
    · rw [sampleAux, if_pos h, hc, ih (c + 1)]
      simp only [List.enumFrom_cons, List.filter_cons, h, if_true,
        List.map_cons]
    · rw [sampleAux, if_neg h, hc, ih (c + 1)]
      simp only [List.enumFrom_cons, List.filter_cons, h, Bool.false_eq_true,
        if_false]

/-- Claim C6 counterexample: a 29.97 fps video sampled at the default
1 fps.  The code strides `int(29.97) = 29` frames and emits frames
0, 29, 58 of a 60-frame video, while the claimed stride is
`round(29.97) = 30`, which would emit frames 0 and 30. -/
theorem C6_counterexample :
    skipStep (2997 / 100) 1 = 29 ∧ claimedStride (2997 / 100) 1 = 30 ∧
    getFrames (2997 / 100) 1 (List.range 60) = [0, 29, 58] ∧
    strideSample (claimedStride (2997 / 100) 1) (List.range 60) = [0, 30] := by
  have h1 : skipStep (2997 / 100) 1 = 29 := by
    rw [skipStep, if_pos (by norm_num : (0 : ℚ) < 2997 / 100 ∧ (0 : ℚ) < 1)]
    rw [Int.floor_eq_iff]
    norm_num
  have h2 : claimedStride (2997 / 100) 1 = 30 := by
    rw [claimedStride, round_eq]
    rw [Int.floor_eq_iff]
    norm_num
  refine ⟨h1, h2, ?_, ?_⟩
  · rw [getFrames, h1]
    decide
  · rw [h2]
    decide

/-- Claim C6 amended: the sampler emits exactly the frames at indices
divisible by the skip step, and for positive rates the skip step is the
truncation `int(source_fps / target_fps)`, i.e. the floor, not the
rounding. -/
theorem C6_amended {α : Type} (videoFps targetFps : ℚ) (frames : List α) :
    getFrames videoFps targetFps frames =
      strideSample (skipStep videoFps targetFps) frames ∧
    (0 < videoFps → 0 < targetFps →
      skipStep videoFps targetFps = ⌊videoFps / targetFps⌋) := by
  constructor
  · rw [getFrames, strideSample, List.enum]
    exact sampleAux_eq_strideFilter (skipStep videoFps targetFps) frames 0
  · intro h1 h2
    rw [skipStep, if_pos ⟨h1, h2⟩]

/-- Witness for the amended claim C6 at 30 fps source and 1 fps target. -/
theorem C6_amended_witness :
    getFrames (30 : ℚ) 1 (List.range 3) =
      strideSample (skipStep 30 1) (List.range 3) ∧
    skipStep (30 : ℚ) 1 = ⌊(30 : ℚ) / 1⌋ := by
  obtain ⟨h1, h2⟩ := C6_amended (30 : ℚ) 1 (List.range 3)
  exact ⟨h1, h2 (by norm_num) (by norm_num)⟩

/-- The upsert's conflict branch does not change the date column. -/
theorem saveSummary_update_date (d text : String) (total : Nat) (now : ℚ)
    (q : SummaryRow) :
    ((if q.summaryDate == d then
        { q with summaryText := text, totalEvents := total,
                 updatedAt := now }
      else q) : SummaryRow).summaryDate = q.summaryDate := by
  split <;> rfl

/-- Finding by date commutes with a date-preserving row update. -/
theorem find?_map_update_date (rows : List SummaryRow) (d : String)
    (upd : SummaryRow → SummaryRow)
    (hdate : ∀ q, (upd q).summaryDate = q.summaryDate) :
    (rows.map upd).find? (fun q => q.summaryDate == d) =
      (rows.find? (fun q => q.summaryDate == d)).map upd := by
  induction rows with
  | nil => rfl
  | cons q rest ih =>
    by_cases h : (q.summaryDate == d) = true
    · have h2 : ((upd q).summaryDate == d) = true := by rw [hdate q]; exact h
      have e1 : List.find? (fun x => x.summaryDate == d)
          (upd q :: List.map upd rest) = some (upd q) :=
        List.find?_cons_of_pos _ h2
      have e2 : List.find? (fun x => x.summaryDate == d) (q :: rest) =
          some q := List.find?_cons_of_pos _ h
      rw [List.map_cons, e1, e2]
      rfl
    · have h2 : ¬((upd q).summaryDate == d) = true := by rw [hdate q]; exact h
      have e1 : List.find? (fun x => x.summaryDate == d)
          (upd q :: List.map upd rest) =
          List.find? (fun x => x.summaryDate == d) (List.map upd rest) :=
        List.find?_cons_of_neg _ h2
      have e2 : List.find? (fun x => x.summaryDate == d) (q :: rest) =
          List.find? (fun x => x.summaryDate == d) rest :=
        List.find?_cons_of_neg _ h
      rw [List.map_cons, e1, e2, ih]

/-- The upsert keeps the dates of the table distinct. -/
theorem saveSummary_nodup (db : SummaryStore) (d text : String)
    (total : Nat) (now : ℚ)
    (h : (db.rows.map (fun r => r.summaryDate)).Nodup) :
    (((saveSummary db d text total now).2).rows.map
      (fun r => r.summaryDate)).Nodup := by
  rw [saveSummary]
  cases hfind : db.rows.find? (fun r => r.summaryDate == d) with
  | some r =>
    have e : db.rows.map ((fun r => r.summaryDate) ∘ (fun q =>
        if q.summaryDate == d then
          { q with summaryText := text, totalEvents := total,
                   updatedAt := now }
        else q)) = db.rows.map (fun r => r.summaryDate) :=
      List.map_congr_left (fun q _ =>
        saveSummary_update_date d text total now q)
    rw [List.map_map] at *
    rw [e]
    exact h
  | none =>
    have hnot : d ∉ db.rows.map (fun r => r.summaryDate) := by
      intro hmem
      obtain ⟨r, hr, hrd⟩ := List.mem_map.mp hmem
      have := List.find?_eq_none.mp hfind r hr
      simp [hrd] at this
    simp only [List.map_append, List.map_cons, List.map_nil]
    rw [List.nodup_append]
    refine ⟨h, List.nodup_singleton d, ?_⟩
    intro a ha hb
    rw [List.mem_singleton.mp hb] at ha
    exact hnot ha

/-- The generation core preserves distinct dates. -/
theorem runForDateCore_nodup (fetchEvents : String → List String)
    (llm : String → List String → String) (db : SummaryStore)
    (targetDate : String) (now : ℚ)
    (h : (db.rows.map (fun r => r.summaryDate)).Nodup) :
    (((runForDateCore fetchEvents llm db targetDate now).2).rows.map
      (fun r => r.summaryDate)).Nodup := by
  rw [runForDateCore]
  by_cases hev : (fetchEvents targetDate).isEmpty = true
  · simpa [hev] using h
  · simp only [hev, Bool.false_eq_true, if_false]
    exact saveSummary_nodup db targetDate _ _ now h

/-- Claim C7 counterexample: a store holding a summary for 2025-09-01
with 5 recorded events while the events table has become empty.  A
forced run returns `None` and leaves the row untouched, so
`total_events` (5) does not equal the current event count (0). -/
theorem C7_counterexample :
    runForDate (fun _ => []) (fun _ _ => "regenerated") cexSummaryStore
        "2025-09-01" true 20 = (none, cexSummaryStore) ∧
    getSummary cexSummaryStore "2025-09-01" =
      some ⟨1, "2025-09-01", "old summary", 5, 10, 10⟩ ∧
    ((fun (_ : String) => ([] : List String)) "2025-09-01").length = 0 ∧
    (5 : Nat) ≠ 0 := by
  refine ⟨?_, ?_, rfl, by decide⟩
  · simp [runForDate, runForDateCore]
  · rfl

/-- Claim C7 amended: the store keeps at most one DailySummary row per
summary date; a second run with force=false leaves the store unchanged
and returns the existing row's id; a forced run with at least one event
for the date overwrites the row so that total_events equals the current
event count (and returns that row's id); a forced run with zero events
is a no-op returning None. -/
theorem C7_amended (fetchEvents : String → List String)
    (llm : String → List String → String) (db : SummaryStore)
    (targetDate : String) (now : ℚ) :
    ((db.rows.map (fun r => r.summaryDate)).Nodup → ∀ force,
      (((runForDate fetchEvents llm db targetDate force now).2).rows.map
        (fun r => r.summaryDate)).Nodup) ∧
    (∀ r, getSummary db targetDate = some r →
      runForDate fetchEvents llm db targetDate false now = (some r.id, db)) ∧
    (fetchEvents targetDate ≠ [] →
      ∃ r, getSummary (runForDate fetchEvents llm db targetDate true now).2
          targetDate = some r ∧
        r.totalEvents = (fetchEvents targetDate).length ∧
        (runForDate fetchEvents llm db targetDate true now).1 = some r.id) ∧
    (fetchEvents targetDate = [] →
      runForDate fetchEvents llm db targetDate true now = (none, db)) := by
  have hforce : runForDate fetchEvents llm db targetDate true now =
      runForDateCore fetchEvents llm db targetDate now := by
    simp [runForDate]
  refine ⟨?_, ?_, ?_, ?_⟩
  · intro h force
    cases force with
    | false =>
      cases hg : getSummary db targetDate with
      | some r =>
        have e : runForDate fetchEvents llm db targetDate false now =
            (some r.id, db) := by simp [runForDate, hg]
        rw [e]
        exact h
      | none =>
        have e : runForDate fetchEvents llm db targetDate false now =
            runForDateCore fetchEvents llm db targetDate now := by
          simp [runForDate, hg]
        rw [e]
        exact runForDateCore_nodup fetchEvents llm db targetDate now h
    | true =>
      rw [hforce]
      exact runForDateCore_nodup fetchEvents llm db targetDate now h
  · intro r hr
    simp [runForDate, hr]
  · intro hne
    have hev : (fetchEvents targetDate).isEmpty = false := by
      simpa [List.isEmpty_iff] using hne
    rw [hforce, runForDateCore]
    simp only [hev, Bool.false_eq_true, if_false]
    rw [saveSummary]
    cases hfind : db.rows.find? (fun r => r.summaryDate == targetDate) with
    | some r =>
      refine ⟨{ r with
          summaryText := llm targetDate (fetchEvents targetDate),
          totalEvents := (fetchEvents targetDate).length,
          updatedAt := now }, ?_, rfl, rfl⟩
      rw [getSummary]
      rw [find?_map_update_date db.rows targetDate _
        (fun q => saveSummary_update_date targetDate
          (llm targetDate (fetchEvents targetDate))
          (fetchEvents targetDate).length now q), hfind]
      have hrd := List.find?_some hfind
      simp only [] at hrd
      have hrd2 : r.summaryDate = targetDate := by simpa using hrd
      simp [hrd2]
    | none =>
      refine ⟨⟨db.nextId, targetDate,
        llm targetDate (fetchEvents targetDate),
        (fetchEvents targetDate).length, now, now⟩, ?_, rfl, rfl⟩
      rw [getSummary, List.find?_append, hfind]
      have e : List.find? (fun r => r.summaryDate == targetDate)
          [(⟨db.nextId, targetDate, llm targetDate (fetchEvents targetDate),
            (fetchEvents targetDate).length, now, now⟩ : SummaryRow)] =
          some ⟨db.nextId, targetDate,
            llm targetDate (fetchEvents targetDate),
            (fetchEvents targetDate).length, now, now⟩ :=
        List.find?_cons_of_pos _ (by simp)
      rw [e]
      rfl
  · intro he
    rw [hforce, runForDateCore]
    simp [he]

/-- Witness for the amended claim C7: a forced run over an empty store
with one event writes a row whose total_events is that event count. -/
theorem C7_amended_witness :
    ∃ r, getSummary (runForDate (fun _ => ["evt"]) (fun _ _ => "text")
        ⟨[], 1⟩ "2025-09-01" true 30).2 "2025-09-01" = some r ∧
      r.totalEvents = ((fun (_ : String) => ["evt"]) "2025-09-01").length ∧
      (runForDate (fun _ => ["evt"]) (fun _ _ => "text") ⟨[], 1⟩
        "2025-09-01" true 30).1 = some r.id :=
  (C7_amended (fun _ => ["evt"]) (fun _ _ => "text") ⟨[], 1⟩
    "2025-09-01" 30).2.2.1 (by simp)

/-- Claim C8 (confirmed): when retrieval yields zero matching records,
the answer operation returns the fixed polite no-records message with
zero evidence and no images, and the LLM gateway is not invoked. -/
theorem C8_no_result_answer {σ : Type} (parse : String → σ)
    (retrieve : σ → List Evidence)
    (materialize : List Evidence → List Evidence)
    (llmResponse : Option String) (userQuery : String)
    (h : retrieve (parse userQuery) = []) :
    answerQuery parse retrieve materialize llmResponse userQuery =
      (noResultAnswer, false) ∧
    noResultAnswer.answer = noRecordsMessage ∧
    noResultAnswer.evidenceCount = 0 ∧
    noResultAnswer.hasImages = false ∧
    noResultAnswer.images = [] := by
  refine ⟨?_, rfl, rfl, rfl, rfl⟩
  rw [answerQuery]
  simp [h]

/-- Witness for claim C8 on an empty store: the retrieval oracle returns
nothing and the fixed no-records answer comes back with the LLM
untouched. -/
theorem C8_no_result_answer_witness :
    answerQuery (fun (_ : String) => ()) (fun _ => [])
      (fun e => e) (some "unused") "9月1日有什么活动？" =
      (noResultAnswer, false) :=
  (C8_no_result_answer (fun (_ : String) => ()) (fun _ => [])
    (fun e => e) (some "unused") "9月1日有什么活动？" rfl).1

/-- Claim C10 (confirmed): an appearance whose representative detection
was resolved by the arbiter's soft-body path (method `soft_match`) and
not upgraded by the refiner is stored with match_method `unknown`: the
persister's mapping only handles face, body, new and the refined
methods, and maps every other method to `unknown`. -/
theorem C10_soft_match_stored_unknown (eventId personId : Nat)
    (detectionList : List Detection) (d : Detection) (bv : List ℚ)
    (h1 : selectBest qualityScore detectionList = some d)
    (h2 : d.method = "soft_match")
    (h3 : d.bodyEmbedding = some bv) :
    buildAppearanceRow eventId personId detectionList =
      some ⟨eventId, personId, "unknown", bv⟩ := by
  rw [buildAppearanceRow, h1]
  dsimp only
  rw [h3]
  dsimp only
  have e : normalizeMatchMethod d.method = "unknown" := by
    rw [h2, normalizeMatchMethod]
    simp
  rw [e]

/-- Witness for claim C10: a single soft-matched detection carrying a
body embedding is stored with match_method `unknown`. -/
theorem C10_soft_match_stored_unknown_witness :
    buildAppearanceRow 5 3 [cexSoftDet] = some ⟨5, 3, "unknown", [1]⟩ :=
  C10_soft_match_stored_unknown 5 3 [cexSoftDet] cexSoftDet [1] rfl rfl rfl

/-- Claim C3 counterexample: in the same frame, a large centred no-method
detection (claimed score 10500) and a tiny full-confidence face
detection (claimed score 10104).  Phase D's `_select_keyframes` picks the
face detection (its score formula is 100·[face] + 50·[body] + 10·conf +
0.01·area), so the selected keyframe does not maximize the claimed
formula. -/
theorem C3_counterexample :
    selectKeyframe [cexScoreClip] 1 =
      some ⟨some (319, 239, 321, 241), 1, "face", 0, 0, "doorbell"⟩ ∧
    (cexLargeDet,
      (⟨some (245, 205, 395, 275), 0, "new", 0, 0, "doorbell"⟩ : Keyframe)) ∈
      keyframeCandidates [cexScoreClip] 1 ∧
    claimedKeyframeScore cexSmallFaceDet < claimedKeyframeScore cexLargeDet := by
  have hdist1 : frameCenterDist (245, 205, 395, 275) = 0 := by
    rw [frameCenterDist]
    norm_num [Real.sqrt_zero]
  have hdist2 : frameCenterDist (319, 239, 321, 241) = 0 := by
    rw [frameCenterDist]
    norm_num [Real.sqrt_zero]
  have hcands : keyframeCandidates [cexScoreClip] 1 =
      [(cexLargeDet,
        (⟨some (245, 205, 395, 275), 0, "new", 0, 0, "doorbell"⟩ : Keyframe)),
       (cexSmallFaceDet,
        (⟨some (319, 239, 321, 241), 1, "face", 0, 0, "doorbell"⟩ :
          Keyframe))] := by
    simp [keyframeCandidates, cexScoreClip, cexLargeDet, cexSmallFaceDet]
  have ha1 : aggScore cexLargeDet = 105 := by
    rw [aggScore]
    simp only [cexLargeDet]
    rw [if_neg (by decide : ¬("new" : String) = "face"),
      if_neg (by decide : ¬("new" : String) = "body")]
    norm_num
  have ha2 : aggScore cexSmallFaceDet = 2751 / 25 := by
    rw [aggScore]
    norm_num [cexSmallFaceDet]
  have hc1 : claimedKeyframeScore cexLargeDet = 10500 := by
    rw [claimedKeyframeScore]
    simp only [cexLargeDet]
    rw [if_neg (by decide : ¬("new" : String) = "face"),
      if_neg (by decide : ¬("new" : String) = "body")]
    rw [hdist1]
    push_cast
    ring
  have hc2 : claimedKeyframeScore cexSmallFaceDet = 10104 := by
    rw [claimedKeyframeScore]
    simp only [cexSmallFaceDet]
    rw [if_neg (by decide : ¬("face" : String) = "body")]
    rw [hdist2]
    norm_num
  refine ⟨?_, ?_, ?_⟩
  · rw [selectKeyframe, hcands]
    simp only [pickMaxAux, ha1, ha2]
    rw [if_pos (by norm_num : (-1 : ℚ) < 105)]
    rw [if_pos (by norm_num : (105 : ℚ) < 2751 / 25)]
    rfl
  · rw [hcands]
    exact List.mem_cons_self _ _
  · rw [hc1, hc2]
    norm_num

/-- Claim C3 amended: Phase G's quality score is exactly the claimed
formula, and both selections return the earliest maximizer of their own
score; but Phase D's keyframe score is the different formula
100·[face] + 50·[body] + 10·confidence + 0.01·bbox_area with no
centering term. -/
theorem C3_amended :
    (∀ d : Detection, qualityScore d = claimedKeyframeScore d) ∧
    (∀ (clips : List Clip) (pid : Nat) (k : Keyframe),
      selectKeyframe clips pid = some k →
      ∃ p, p.2 = k ∧
        IsEarliestMax (fun q : Detection × Keyframe => aggScore q.1)
          (keyframeCandidates clips pid) p ∧
        (-1 : ℚ) < aggScore p.1) ∧
    (∀ (L : List Detection) (b : Detection),
      selectBest qualityScore L = some b → IsEarliestMax qualityScore L b) := by
  refine ⟨?_, ?_, ?_⟩
  · intro d
    rw [qualityScore, claimedKeyframeScore]
    by_cases h1 : d.method = "face"
    · have h2 : ¬d.method = "body" := by rw [h1]; simp
      simp only [h1, h2, if_true, if_false]
      cases d.bbox <;> (push_cast; ring)
    · by_cases h2 : d.method = "body"
      · simp only [h1, h2, if_true, if_false]
        cases d.bbox <;> (push_cast; ring)
      · simp only [h1, h2, if_false]
        by_cases h3 : d.method = "new" <;> simp only [h3, if_true, if_false] <;>
          cases d.bbox <;> (push_cast; ring)
  · intro clips pid k hD
    rw [selectKeyframe] at hD
    obtain ⟨p, hp, hpk⟩ := Option.map_eq_some'.mp hD
    obtain ⟨hmax, hgt⟩ := pickMaxAux_some_isEarliestMax
      (fun q : Detection × Keyframe => aggScore q.1) hp
    exact ⟨p, hpk, hmax, hgt⟩
  · intro L b hG
    exact selectBest_isEarliestMax qualityScore hG

/-- Witness for the amended claim C3: the single-candidate keyframe
selection, the singleton quality selection, and the score equation at a
concrete detection. -/
theorem C3_amended_witness :
    (qualityScore cexFamilyDet = claimedKeyframeScore cexFamilyDet) ∧
    (∃ p, p.2 = (⟨none, 9 / 10, "face", 0, 0, "doorbell"⟩ : Keyframe) ∧
      IsEarliestMax (fun q : Detection × Keyframe => aggScore q.1)
        (keyframeCandidates [cexLastClip] 1) p ∧
      (-1 : ℚ) < aggScore p.1) ∧
    IsEarliestMax qualityScore [cexSoftDet] cexSoftDet := by
  obtain ⟨h1, h2, h3⟩ := C3_amended
  refine ⟨h1 cexFamilyDet, ?_, h3 [cexSoftDet] cexSoftDet rfl⟩
  refine h2 [cexLastClip] 1 ⟨none, 9 / 10, "face", 0, 0, "doorbell"⟩ ?_
  have hcands : keyframeCandidates [cexLastClip] 1 =
      [(cexFamilyDet, (⟨none, 9 / 10, "face", 0, 0, "doorbell"⟩ : Keyframe))] := by
    simp [keyframeCandidates, cexLastClip, cexFamilyDet]
  have ha : aggScore cexFamilyDet = 109 := by
    rw [aggScore]
    norm_num [cexFamilyDet]
  rw [selectKeyframe, hcands]
  simp only [pickMaxAux, ha]
  rw [if_pos (by norm_num : (-1 : ℚ) < 109)]
  rfl
